import Mathlib

/-!
# Shallow embedding of the ZetaVM interpreter core (src/vm/interp.cpp)

This file embeds the lazy-compiling bytecode interpreter of the repository:
the value representation, the block-version registry, the one-pass block
compiler, the threaded interpreter loop (branch-stub patching, call/return
frame discipline) and the external call gateway.

Modelling conventions:
* Machine pointers into the value stack are modelled as integer slot
  addresses; the stack grows downward, a push decrements the stack pointer,
  and the cell array is a total function from addresses to values.
* Addresses into the code heap are natural numbers; the code heap base is
  address 0 and its limit is the constant codeHeapLimit.  One emitted
  opcode or immediate occupies one address unit (the C code packs
  differently sized immediates, but no claim depends on byte offsets).
* A raw pointer stored in a Value (TAG_RAWPTR) is modelled by the
  inductive RawPtr, which records which kind of pointer the word holds;
  the C code reinterprets such words by casting, and a cast applied to a
  word of the wrong kind is a modelling boundary mapped to a fatal result.
* BlockVersion records live outside the code heap.  A branch target word
  holding codeHeapLimit + vid denotes a pointer to the BlockVersion record
  with identity vid; a word below codeHeapLimit denotes a patched direct
  code address.  This mirrors the range check the interpreter uses to
  distinguish the two.
* Heap objects, arrays and strings are reference ids into total maps.
  Strings are byte strings; bytes are modelled as the code points of their
  characters.
* Debug assertions of the C code (assert(...)) are modelled as a fatal
  outcome, distinct from thrown RunError values, which are recoverable.
* Host function calls, the import collaborator, and floating-point
  arithmetic are outside the modelled core and yield a blocked outcome.
-/

set_option maxHeartbeats 1000000

namespace ZetaVM

/-- Value type tags, as in the C Tag enumeration. -/
inductive Tag where
  | undef
  | boolTag
  | int32
  | float32
  | stringTag
  | object
  | array
  | hostfn
  | rawptr
deriving DecidableEq

/-- The kind of machine pointer held in a raw-pointer Value word. -/
inductive RawPtr where
  | null
  | stackAddr (p : Int)
  | verAddr (vid : Nat)
  | codeAddr (a : Nat)
deriving DecidableEq

/-- The tagged value cell.  float32 payloads are raw bit patterns (no
floating-point arithmetic is modelled).  Strings, objects, arrays and host
functions are references into the heap, so equality of these values is
reference identity, as for the C Value word comparison. -/
inductive Value where
  | undef
  | boolV (b : Bool)
  | int32 (n : Int)
  | float32 (bits : Nat)
  | strV (ref : Nat)
  | objV (ref : Nat)
  | arrV (ref : Nat)
  | hostFnV (ref : Nat)
  | rawPtr (p : RawPtr)
deriving DecidableEq

/-- The tag of a value, as Value::getTag. -/
def Value.getTag : Value → Tag
  | .undef => .undef
  | .boolV _ => .boolTag
  | .int32 _ => .int32
  | .float32 _ => .float32
  | .strV _ => .stringTag
  | .objV _ => .object
  | .arrV _ => .array
  | .hostFnV _ => .hostfn
  | .rawPtr _ => .rawptr

/-- Opcode enumeration, as in the source. -/
inductive Opcode where
  | GET_LOCAL
  | SET_LOCAL
  | PUSH
  | POP
  | DUP
  | SWAP
  | ADD_I32
  | SUB_I32
  | MUL_I32
  | LT_I32
  | LE_I32
  | GT_I32
  | GE_I32
  | EQ_I32
  | ADD_F32
  | SUB_F32
  | MUL_F32
  | DIV_F32
  | LT_F32
  | LE_F32
  | GT_F32
  | GE_F32
  | EQ_F32
  | SIN_F32
  | COS_F32
  | SQRT_F32
  | I32_TO_F32
  | F32_TO_I32
  | F32_TO_STR
  | STR_TO_F32
  | EQ_BOOL
  | HAS_TAG
  | GET_TAG
  | STR_LEN
  | GET_CHAR
  | GET_CHAR_CODE
  | STR_CAT
  | EQ_STR
  | NEW_OBJECT
  | HAS_FIELD
  | SET_FIELD
  | GET_FIELD
  | EQ_OBJ
  | NEW_ARRAY
  | ARRAY_LEN
  | ARRAY_PUSH
  | GET_ELEM
  | SET_ELEM
  | JUMP
  | JUMP_STUB
  | IF_TRUE
  | CALL
  | RET
  | THROW
  | IMPORT
  | ABORT
deriving DecidableEq

/-- One cell of the code heap: an opcode tag or an immediate.  ptrImm holds
either a direct code address (below codeHeapLimit) or a pointer to a
BlockVersion record (codeHeapLimit + vid). -/
inductive CodeWord where
  | op (o : Opcode)
  | valImm (v : Value)
  | u16 (n : Nat)
  | tagImm (t : Tag)
  | ptrImm (p : Nat)
deriving DecidableEq

/-- A block version: the compiled image of one basic block.  startPtr and
endPtr delimit its extent in the code heap; a version is uncompiled while
startPtr is none. -/
structure BlockVersion where
  funRef : Nat
  blockRef : Nat
  startPtr : Option Nat := none
  endPtr : Option Nat := none
deriving DecidableEq

/-- Information associated with a return address (per call site). -/
structure RetEntry where
  excVer : Option Nat := none
deriving DecidableEq

/-- Initial code heap size (1 MiB in the source); the heap occupies
addresses [0, codeHeapLimit). -/
def codeHeapLimit : Nat := 1048576

/-- Initial stack size in words (1 << 16 in the source). -/
def STACK_INIT_SIZE : Int := 65536

/-- The stack base address; the stack occupies addresses
(stackLimitAddr, stackBaseAddr] and grows downward. -/
def stackBaseAddr : Int := STACK_INIT_SIZE

/-- Lower stack limit address. -/
def stackLimitAddr : Int := 0

/-- The code-address word denoting a pointer to BlockVersion record vid
(outside the code heap, distinguishable by range check). -/
def verPtrOf (vid : Nat) : Nat := codeHeapLimit + vid

/-- The program image and run-time heap: strings (byte lists), objects
(field lists) and arrays, each a total map from reference ids, with a
fresh-reference counter. -/
structure Heap where
  strHeap : Nat → List Char
  strCount : Nat
  objHeap : Nat → List (List Char × Value)
  objCount : Nat
  arrHeap : Nat → List Value
  arrCount : Nat

/-- The emitted code: the flat code heap and its bump allocation pointer. -/
structure EmitState where
  code : Nat → CodeWord
  codeAlloc : Nat

/-- The block version registry and associated maps: versionMap (block
object to its version), instrMap (instruction address to version) and
retAddrMap (return version to RetEntry). -/
structure Registry where
  vers : Nat → BlockVersion
  versCount : Nat
  versionOf : Nat → Option Nat
  instrMap : Nat → Option Nat
  retMap : Nat → Option RetEntry

/-- The full interpreter state: heap, code, registry, the value stack
(cells, stack pointer, frame pointer), the instruction pointer and the
single-character string cache. -/
structure VMState where
  heap : Heap
  emit : EmitState
  reg : Registry
  stk : Int → Value
  sp : Int
  fp : Int
  instrPtr : Nat
  charStrings : Nat → Value

/-- The recoverable error taxonomy (RunError in the source carries a
message string; here each error is structured data).  The argCount error
carries the source-position value recovered for the originating
instruction. -/
inductive RunError where
  | missingField (name : List Char)
  | emptyBlock
  | unknownOpcode (name : List Char)
  | argCount (srcPos : Value) (received : Nat) (expected : Int)
  | notEnoughLocals
  | argCountMismatch
  | stackUnderflowCall
  | invalidCallee
  | invalidFieldName (name : List Char)
  | indexOutOfBounds
  | stackImbalance
deriving DecidableEq

/-- Result of a registry-level (encoding) computation: ok, a thrown
RunError carrying the registry at throw time, or a failed assertion. -/
inductive ERes (α : Type) where
  | ok (a : α)
  | err (er : RunError) (r : Registry)
  | fatal

/-- Result of a compiler-level computation: ok, a thrown RunError carrying
the registry and code heap at throw time, or a failed assertion. -/
inductive CRes (α : Type) where
  | ok (a : α)
  | err (er : RunError) (r : Registry) (e : EmitState)
  | fatal

/-- Result of an interpreter-level computation: ok, a thrown RunError
carrying the VM state at throw time, a failed assertion, or a call out of
the modelled core (host functions, import, floating point). -/
inductive Res (α : Type) where
  | ok (a : α)
  | err (er : RunError) (s : VMState)
  | fatal
  | blocked

instance : Monad ERes where
  pure := .ok
  bind m f := match m with
    | .ok a => f a
    | .err er r => .err er r
    | .fatal => .fatal

instance : Monad CRes where
  pure := .ok
  bind m f := match m with
    | .ok a => f a
    | .err er r e => .err er r e
    | .fatal => .fatal

instance : Monad Res where
  pure := .ok
  bind m f := match m with
    | .ok a => f a
    | .err er s => .err er s
    | .fatal => .fatal
    | .blocked => .blocked

@[simp] theorem ERes.ok_bind_e {α β : Type} (a : α) (f : α → ERes β) :
    (ERes.ok a >>= f) = f a := rfl

@[simp] theorem ERes.err_bind_e {α β : Type} (er : RunError) (r : Registry)
    (f : α → ERes β) : (ERes.err er r >>= f) = ERes.err er r := rfl

@[simp] theorem ERes.fatal_bind_e {α β : Type} (f : α → ERes β) :
    (ERes.fatal >>= f) = (ERes.fatal : ERes β) := rfl

@[simp] theorem CRes.ok_bind_c {α β : Type} (a : α) (f : α → CRes β) :
    (CRes.ok a >>= f) = f a := rfl

@[simp] theorem CRes.err_bind_c {α β : Type} (er : RunError) (r : Registry)
    (e : EmitState) (f : α → CRes β) :
    (CRes.err er r e >>= f) = CRes.err er r e := rfl

@[simp] theorem CRes.fatal_bind_c {α β : Type} (f : α → CRes β) :
    (CRes.fatal >>= f) = (CRes.fatal : CRes β) := rfl

@[simp] theorem Res.ok_bind_r {α β : Type} (a : α) (f : α → Res β) :
    (Res.ok a >>= f) = f a := rfl

@[simp] theorem Res.err_bind_r {α β : Type} (er : RunError) (s : VMState)
    (f : α → Res β) : (Res.err er s >>= f) = Res.err er s := rfl

@[simp] theorem Res.fatal_bind_r {α β : Type} (f : α → Res β) :
    (Res.fatal >>= f) = (Res.fatal : Res β) := rfl

@[simp] theorem Res.blocked_bind {α β : Type} (f : α → Res β) :
    (Res.blocked >>= f) = (Res.blocked : Res β) := rfl

@[simp] theorem ERes.pure_eq_e {α : Type} (a : α) :
    (pure a : ERes α) = ERes.ok a := rfl

@[simp] theorem CRes.pure_eq_c {α : Type} (a : α) :
    (pure a : CRes α) = CRes.ok a := rfl

@[simp] theorem Res.pure_eq_r {α : Type} (a : α) :
    (pure a : Res α) = Res.ok a := rfl

/-- The byte string of a literal (bytes are the characters of the
literal). -/
def strLit (s : String) : List Char := s.data

/-- Field lookup in an object's field list (the observable behaviour of
Object::getField; the inline-cache slot hint of the source is a pure
performance device and is not observable). -/
def lookupField : List (List Char × Value) → List Char → Option Value
  | [], _ => none
  | (k, v) :: rest, n => if k = n then some v else lookupField rest n

/-- Modelled from the spec: Object field write (Object::setField of the
runtime collaborator, not under src/).  The spec describes an Object as a
mapping from field name to Value supporting field write, so writing a
field updates it in place or inserts it. -/
def setFieldList : List (List Char × Value) → List Char → Value →
    List (List Char × Value)
  | [], n, v => [(n, v)]
  | (k, w) :: rest, n, v =>
      if k = n then (n, v) :: rest else (k, w) :: setFieldList rest n v

/-- Field existence test (Object::hasField). -/
def hasFieldList (fields : List (List Char × Value)) (n : List Char) : Bool :=
  (lookupField fields n).isSome

/-- Modelled from the spec: the identifier validity check (isValidIdent of
the runtime collaborator, not under src/): a nonempty name whose first
character is a letter or underscore and whose remaining characters are
letters, digits or underscores. -/
def isIdentChar (c : Char) : Bool := c.isAlphanum || c = '_'

/-- Modelled from the spec: see isIdentChar. -/
def isValidIdent : List Char → Bool
  | [] => false
  | c :: rest => (c.isAlpha || c = '_') && rest.all isIdentChar

/-- Modelled from the spec: the tag-name parsing used by the has_tag
compiler case (strToTag of the runtime collaborator, not under src/).
Unknown names are a failure outside the modelled core. -/
def strToTag (cs : List Char) : Option Tag :=
  if cs = strLit "undef" then some .undef
  else if cs = strLit "bool" then some .boolTag
  else if cs = strLit "int32" then some .int32
  else if cs = strLit "float32" then some .float32
  else if cs = strLit "string" then some .stringTag
  else if cs = strLit "object" then some .object
  else if cs = strLit "array" then some .array
  else if cs = strLit "hostfn" then some .hostfn
  else if cs = strLit "raw_ptr" then some .rawptr
  else none

/-! ## Field access (the observable contract of the ICache accessors) -/

/-- ICache::getField at the registry level: read a named field of an
object, throwing a missing-field RunError when absent. -/
def eGetField (h : Heap) (oref : Nat) (name : List Char) (r : Registry) :
    ERes Value :=
  match lookupField (h.objHeap oref) name with
  | some v => .ok v
  | none => .err (.missingField name) r

/-- ICache::getInt32: the field must hold an int32 (debug assertion). -/
def eGetInt32 (h : Heap) (oref : Nat) (name : List Char) (r : Registry) :
    ERes Int :=
  match eGetField h oref name r with
  | .ok (.int32 n) => .ok n
  | .ok _ => .fatal
  | .err er r0 => .err er r0
  | .fatal => .fatal

/-- ICache::getStr: the field must hold a string (debug assertion);
returns the string reference. -/
def eGetStr (h : Heap) (oref : Nat) (name : List Char) (r : Registry) :
    ERes Nat :=
  match eGetField h oref name r with
  | .ok (.strV sr) => .ok sr
  | .ok _ => .fatal
  | .err er r0 => .err er r0
  | .fatal => .fatal

/-- ICache::getObj: the field must hold an object (debug assertion). -/
def eGetObj (h : Heap) (oref : Nat) (name : List Char) (r : Registry) :
    ERes Nat :=
  match eGetField h oref name r with
  | .ok (.objV o) => .ok o
  | .ok _ => .fatal
  | .err er r0 => .err er r0
  | .fatal => .fatal

/-- ICache::getArr: the field must hold an array (debug assertion). -/
def eGetArr (h : Heap) (oref : Nat) (name : List Char) (r : Registry) :
    ERes Nat :=
  match eGetField h oref name r with
  | .ok (.arrV a) => .ok a
  | .ok _ => .fatal
  | .err er r0 => .err er r0
  | .fatal => .fatal

/-! ## The block version registry -/

/-- getBlockVersion: find the canonical version of a block, creating an
uncompiled version on first reference.  The source asserts that the list
of versions for a block has size one and that the stored version belongs
to the same function. -/
def getBlockVersion (funRef blockRef : Nat) (r : Registry) :
    ERes (Nat × Registry) :=
  match r.versionOf blockRef with
  | some vid =>
      if (r.vers vid).funRef = funRef then .ok (vid, r) else .fatal
  | none =>
      let vid := r.versCount
      .ok (vid,
        { r with
          vers := Function.update r.vers vid
            { funRef := funRef, blockRef := blockRef }
          versCount := vid + 1
          versionOf := Function.update r.versionOf blockRef (some vid) })

/-! ## The block compiler

The source function compile(BlockVersion*) is split here into a pure
encoding pass (encodeInstr: per-instruction registry effects plus the list
of code words to emit) and an emission pass (emitWords: writeCode folded
over that list).  The net effect on the state is that of the interleaved
source loop, because the encoding pass never touches the code heap and the
emission pass never touches the registry. -/

/-- writeCode: append one code word to the code heap.  The source asserts
that the allocation pointer is below the heap limit. -/
def writeCode (w : CodeWord) (e : EmitState) : Option EmitState :=
  if e.codeAlloc < codeHeapLimit then
    some { code := Function.update e.code e.codeAlloc w,
           codeAlloc := e.codeAlloc + 1 }
  else none

/-- Emit a list of code words in order. -/
def emitWords : List CodeWord → EmitState → Option EmitState
  | [], e => some e
  | w :: ws, e =>
      match writeCode w e with
      | some e1 => emitWords ws e1
      | none => none

/-- The per-instruction case analysis of compile: given the enclosing
version vid and the address site at which the instruction will be
emitted, read the instruction object's fields, apply the registry effects
(new block versions, instrMap and retAddrMap entries) and return the code
words to emit.  Unknown op names throw the unknown-opcode RunError. -/
def encodeInstr (h : Heap) (vid : Nat) (site : Nat) (instr : Nat)
    (r : Registry) : ERes (List CodeWord × Registry) := do
  let opRef ← eGetStr h instr (strLit "op") r
  let op := h.strHeap opRef
  if op = strLit "push" then do
    let val ← eGetField h instr (strLit "val") r
    pure ([.op .PUSH, .valImm val], r)
  else if op = strLit "pop" then
    pure ([.op .POP], r)
  else if op = strLit "dup" then do
    let idx ← eGetInt32 h instr (strLit "idx") r
    pure ([.op .DUP, .u16 (idx % 65536).toNat], r)
  else if op = strLit "swap" then
    pure ([.op .SWAP], r)
  else if op = strLit "get_local" then do
    let idx ← eGetInt32 h instr (strLit "idx") r
    pure ([.op .GET_LOCAL, .u16 (idx % 65536).toNat], r)
  else if op = strLit "set_local" then do
    let idx ← eGetInt32 h instr (strLit "idx") r
    pure ([.op .SET_LOCAL, .u16 (idx % 65536).toNat], r)
  else if op = strLit "add_i32" then pure ([.op .ADD_I32], r)
  else if op = strLit "sub_i32" then pure ([.op .SUB_I32], r)
  else if op = strLit "mul_i32" then pure ([.op .MUL_I32], r)
  else if op = strLit "lt_i32" then pure ([.op .LT_I32], r)
  else if op = strLit "le_i32" then pure ([.op .LE_I32], r)
  else if op = strLit "gt_i32" then pure ([.op .GT_I32], r)
  else if op = strLit "ge_i32" then pure ([.op .GE_I32], r)
  else if op = strLit "eq_i32" then pure ([.op .EQ_I32], r)
  else if op = strLit "add_f32" then pure ([.op .ADD_F32], r)
  else if op = strLit "sub_f32" then pure ([.op .SUB_F32], r)
  else if op = strLit "mul_f32" then pure ([.op .MUL_F32], r)
  else if op = strLit "div_f32" then pure ([.op .DIV_F32], r)
  else if op = strLit "lt_f32" then pure ([.op .LT_F32], r)
  else if op = strLit "le_f32" then pure ([.op .LE_F32], r)
  else if op = strLit "gt_f32" then pure ([.op .GT_F32], r)
  else if op = strLit "ge_f32" then pure ([.op .GE_F32], r)
  else if op = strLit "eq_f32" then pure ([.op .EQ_F32], r)
  else if op = strLit "sin_f32" then pure ([.op .SIN_F32], r)
  else if op = strLit "cos_f32" then pure ([.op .COS_F32], r)
  else if op = strLit "sqrt_f32" then pure ([.op .SQRT_F32], r)
  else if op = strLit "i32_to_f32" then pure ([.op .I32_TO_F32], r)
  else if op = strLit "f32_to_i32" then pure ([.op .F32_TO_I32], r)
  else if op = strLit "f32_to_str" then pure ([.op .F32_TO_STR], r)
  else if op = strLit "str_to_f32" then pure ([.op .STR_TO_F32], r)
  else if op = strLit "eq_bool" then pure ([.op .EQ_BOOL], r)
  else if op = strLit "has_tag" then do
    let tagRef ← eGetStr h instr (strLit "tag") r
    match strToTag (h.strHeap tagRef) with
    | some t => pure ([.op .HAS_TAG, .tagImm t], r)
    | none => .fatal
  else if op = strLit "str_len" then pure ([.op .STR_LEN], r)
  else if op = strLit "get_char" then pure ([.op .GET_CHAR], r)
  else if op = strLit "get_char_code" then pure ([.op .GET_CHAR_CODE], r)
  else if op = strLit "str_cat" then pure ([.op .STR_CAT], r)
  else if op = strLit "eq_str" then pure ([.op .EQ_STR], r)
  else if op = strLit "new_object" then pure ([.op .NEW_OBJECT], r)
  else if op = strLit "has_field" then pure ([.op .HAS_FIELD], r)
  else if op = strLit "set_field" then pure ([.op .SET_FIELD], r)
  else if op = strLit "get_field" then pure ([.op .GET_FIELD], r)
  else if op = strLit "new_array" then pure ([.op .NEW_ARRAY], r)
  else if op = strLit "array_len" then pure ([.op .ARRAY_LEN], r)
  else if op = strLit "array_push" then pure ([.op .ARRAY_PUSH], r)
  else if op = strLit "set_elem" then pure ([.op .SET_ELEM], r)
  else if op = strLit "get_elem" then pure ([.op .GET_ELEM], r)
  else if op = strLit "eq_obj" then pure ([.op .EQ_OBJ], r)
  else if op = strLit "jump" then do
    let dstBB ← eGetObj h instr (strLit "to") r
    let (dstVid, r) ← getBlockVersion (r.vers vid).funRef dstBB r
    pure ([.op .JUMP_STUB, .ptrImm (verPtrOf dstVid)], r)
  else if op = strLit "if_true" then do
    let thenBB ← eGetObj h instr (strLit "then") r
    let elseBB ← eGetObj h instr (strLit "else") r
    let (thenVid, r) ← getBlockVersion (r.vers vid).funRef thenBB r
    let (elseVid, r) ← getBlockVersion (r.vers vid).funRef elseBB r
    pure ([.op .IF_TRUE, .ptrImm (verPtrOf thenVid),
           .ptrImm (verPtrOf elseVid)], r)
  else if op = strLit "call" then do
    let r := { r with instrMap := Function.update r.instrMap site (some vid) }
    let numArgs ← eGetInt32 h instr (strLit "num_args") r
    let retToBB ← eGetObj h instr (strLit "ret_to") r
    let (retVid, r) ← getBlockVersion (r.vers vid).funRef retToBB r
    let (entry, r) ←
      if hasFieldList (h.objHeap instr) (strLit "throw_to") then do
        let throwBB ← eGetObj h instr (strLit "throw_to") r
        let (throwVid, r) ← getBlockVersion (r.vers vid).funRef throwBB r
        pure (({ excVer := some throwVid } : RetEntry), r)
      else
        pure (({ excVer := none } : RetEntry), r)
    let r := { r with retMap := Function.update r.retMap retVid (some entry) }
    pure ([.op .CALL, .u16 (numArgs % 65536).toNat,
           .ptrImm (verPtrOf retVid)], r)
  else if op = strLit "ret" then
    pure ([.op .RET], r)
  else if op = strLit "throw" then
    let r := { r with instrMap := Function.update r.instrMap site (some vid) }
    pure ([.op .THROW], r)
  else if op = strLit "import" then
    pure ([.op .IMPORT], r)
  else if op = strLit "abort" then
    let r := { r with instrMap := Function.update r.instrMap site (some vid) }
    pure ([.op .ABORT], r)
  else
    .err (.unknownOpcode op) r

/-- The compile loop body over the instruction list: encode each
instruction at the current allocation address and emit its words.  Each
list element must be an object (debug assertion). -/
def compileLoop (h : Heap) (vid : Nat) :
    List Value → Registry → EmitState → CRes (Registry × EmitState)
  | [], r, e => .ok (r, e)
  | instrVal :: rest, r, e =>
      match instrVal with
      | .objV instr =>
          match encodeInstr h vid e.codeAlloc instr r with
          | .ok (ws, r1) =>
              match emitWords ws e with
              | some e1 => compileLoop h vid rest r1 e1
              | none => .fatal
          | .err er r1 => .err er r1 e
          | .fatal => .fatal
      | _ => .fatal

/-- compile: lower a block version into the code heap.  Reads the block's
instrs array (missing field throws), rejects an empty block, marks
startPtr at the current allocation address, lowers each instruction in
order and marks endPtr. -/
def compile (h : Heap) (vid : Nat) (r : Registry) (e : EmitState) :
    CRes (Registry × EmitState) :=
  let block := (r.vers vid).blockRef
  match eGetArr h block (strLit "instrs") r with
  | .ok instrsRef =>
      let instrs := h.arrHeap instrsRef
      if instrs.length = 0 then .err .emptyBlock r e
      else
        let v1 := { r.vers vid with startPtr := some e.codeAlloc }
        let r1 := { r with vers := Function.update r.vers vid v1 }
        match compileLoop h vid instrs r1 e with
        | .ok (r2, e2) =>
            let v2 := { r2.vers vid with endPtr := some e2.codeAlloc }
            .ok ({ r2 with vers := Function.update r2.vers vid v2 }, e2)
        | .err er r2 e2 => .err er r2 e2
        | .fatal => .fatal
  | .err er r0 => .err er r0 e
  | .fatal => .fatal

/-- compile lifted to the full interpreter state. -/
def compileInState (vid : Nat) (s : VMState) : Res VMState :=
  match compile s.heap vid s.reg s.emit with
  | .ok (r, e) => .ok { s with reg := r, emit := e }
  | .err er r e => .err er { s with reg := r, emit := e }
  | .fatal => .fatal

/-! ## The value stack -/

/-- pushVal: the stack grows downward, so a push decrements the stack
pointer and writes the new top cell.  (The overflow assertion of the
source is a debug check; no claim concerns stack exhaustion.) -/
def pushVal (s : VMState) (v : Value) : VMState :=
  { s with sp := s.sp - 1, stk := Function.update s.stk (s.sp - 1) v }

/-- popVal: read the top cell and increment the stack pointer. -/
def popVal (s : VMState) : Value × VMState :=
  (s.stk s.sp, { s with sp := s.sp + 1 })

/-- TRUE and FALSE push helper (pushBool). -/
def pushBool (s : VMState) (b : Bool) : VMState := pushVal s (.boolV b)

/-- popBool: the popped value must be a bool (debug assertion). -/
def popBool (s : VMState) : Res (Bool × VMState) :=
  match popVal s with
  | (.boolV b, s1) => .ok (b, s1)
  | _ => .fatal

/-- popInt32: the popped value must be an int32 (debug assertion). -/
def popInt32 (s : VMState) : Res (Int × VMState) :=
  match popVal s with
  | (.int32 n, s1) => .ok (n, s1)
  | _ => .fatal

/-- popStr: the popped value must be a string (debug assertion); returns
the string reference. -/
def popStr (s : VMState) : Res (Nat × VMState) :=
  match popVal s with
  | (.strV r, s1) => .ok (r, s1)
  | _ => .fatal

/-- popObj: the popped value must be an object (debug assertion). -/
def popObj (s : VMState) : Res (Nat × VMState) :=
  match popVal s with
  | (.objV r, s1) => .ok (r, s1)
  | _ => .fatal

/-- stackSize: the number of allocated stack slots. -/
def stackSize (s : VMState) : Int := stackBaseAddr - s.sp

/-! ## Source-position recovery and the argument-count check -/

/-- The reverse scan of a block's instruction objects for the nearest
src_pos annotation; each element must be an object (a debug assertion,
the none result). -/
def findSrcPosE (h : Heap) : List Value → Option Value
  | [] => some .undef
  | v :: rest =>
      match v with
      | .objV iref =>
          match lookupField (h.objHeap iref) (strLit "src_pos") with
          | some pos => some pos
          | none => findSrcPosE h rest
      | _ => none

/-- getSrcPos: recover the source position for an instruction address via
instrMap; when the address is unmapped the result is the undef value. -/
def getSrcPos (h : Heap) (r : Registry) (addr : Nat) : ERes Value :=
  match r.instrMap addr with
  | none => .ok .undef
  | some vid =>
      match eGetArr h (r.vers vid).blockRef (strLit "instrs") r with
      | .ok instrsRef =>
          match findSrcPosE h (h.arrHeap instrsRef).reverse with
          | some pos => .ok pos
          | none => .fatal
      | .err er r0 => .err er r0
      | .fatal => .fatal

/-- checkArgCount: recover the source position of the call instruction,
then throw the argument-count RunError when the argument count does not
match the parameter count. -/
def checkArgCount (s : VMState) (callInstr : Nat) (numParams : Int)
    (numArgs : Nat) : Res Unit :=
  match getSrcPos s.heap s.reg callInstr with
  | .ok srcPos =>
      if (numArgs : Int) = numParams then .ok ()
      else .err (.argCount srcPos numArgs numParams) s
  | .err er _ => .err er s
  | .fatal => .fatal

/-! ## Function calls -/

/-- funCall: perform a user function call.  Resolves the callee's entry
block version (compiling it if uncompiled), checks the argument count,
saves the caller context (previous stack pointer reconstructed as
sp + numArgs, previous frame pointer, return version pointer), points the
frame pointer at the first argument, allocates the additional locals and
jumps to the entry version. -/
def funCall (callInstr : Nat) (funRef : Nat) (numArgs : Nat)
    (retVid : Nat) (s : VMState) : Res VMState := do
  let entryBB ←
    match eGetObj s.heap funRef (strLit "entry") s.reg with
    | .ok o => Res.ok o
    | .err er _ => Res.err er s
    | .fatal => Res.fatal
  let (entryVid, s) ←
    match getBlockVersion funRef entryBB s.reg with
    | .ok (vid, r) => Res.ok (vid, { s with reg := r })
    | .err er _ => Res.err er s
    | .fatal => Res.fatal
  let s ←
    if (s.reg.vers entryVid).startPtr = none then compileInState entryVid s
    else pure s
  let numLocals ←
    match eGetInt32 s.heap funRef (strLit "num_locals") s.reg with
    | .ok n => Res.ok n
    | .err er _ => Res.err er s
    | .fatal => Res.fatal
  let numParams ←
    match eGetInt32 s.heap funRef (strLit "num_params") s.reg with
    | .ok n => Res.ok n
    | .err er _ => Res.err er s
    | .fatal => Res.fatal
  let _ ← checkArgCount s callInstr numParams numArgs
  if numLocals < numParams then
    .err .notEnoughLocals s
  else if (numArgs : Int) ≠ numParams then
    .err .argCountMismatch s
  else
    let prevSp := s.sp + numArgs
    let prevFp := s.fp
    let s := { s with fp := s.sp + numArgs - 1 }
    let s := { s with sp := s.sp - (numLocals - numArgs) }
    let s := pushVal s (.rawPtr (.stackAddr prevSp))
    let s := pushVal s (.rawPtr (.stackAddr prevFp))
    let s := pushVal s (.rawPtr (.verAddr retVid))
    match (s.reg.vers entryVid).startPtr with
    | some a => .ok { s with instrPtr := a }
    | none => .fatal

/-! ## The interpreter loop -/

/-- The outcome of one dispatch of the interpreter loop: continue at the
next state, exit the loop returning a value (the RET top-level case), a
thrown RunError carrying the state at throw time, a failed assertion, or
a call out of the modelled core. -/
inductive StepRes where
  | next (s : VMState)
  | ret (v : Value) (s : VMState)
  | err (er : RunError) (s : VMState)
  | fatal
  | blocked

/-- View a Res VMState as a loop outcome. -/
def Res.toStep : Res VMState → StepRes
  | .ok s => .next s
  | .err er s => .err er s
  | .fatal => .fatal
  | .blocked => .blocked

/-- The handler of one non-RET opcode o read at address pc.  Each handler
advances the instruction pointer past its immediates, applies the stack
and heap effects of the source handler, and yields the next state. -/
def execInstr (o : Opcode) (pc : Nat) (s0 : VMState) : Res VMState :=
  match o with
  | .PUSH =>
      match s0.emit.code (pc + 1) with
      | .valImm v => .ok (pushVal { s0 with instrPtr := pc + 2 } v)
      | _ => .fatal
  | .POP =>
      let (_, s) := popVal { s0 with instrPtr := pc + 1 }
      .ok s
  | .DUP =>
      match s0.emit.code (pc + 1) with
      | .u16 idx =>
          let s := { s0 with instrPtr := pc + 2 }
          .ok (pushVal s (s.stk (s.sp + idx)))
      | _ => .fatal
  | .SWAP =>
      let (v0, s) := popVal { s0 with instrPtr := pc + 1 }
      let (v1, s) := popVal s
      .ok (pushVal (pushVal s v0) v1)
  | .SET_LOCAL =>
      match s0.emit.code (pc + 1) with
      | .u16 idx =>
          let (v, s) := popVal { s0 with instrPtr := pc + 2 }
          .ok { s with stk := Function.update s.stk (s.fp - idx) v }
      | _ => .fatal
  | .GET_LOCAL =>
      match s0.emit.code (pc + 1) with
      | .u16 idx =>
          let s := { s0 with instrPtr := pc + 2 }
          .ok (pushVal s (s.stk (s.fp - idx)))
      | _ => .fatal
  | .ADD_I32 => do
      let (arg1, s) ← popInt32 { s0 with instrPtr := pc + 1 }
      let (arg0, s) ← popInt32 s
      .ok (pushVal s (.int32 (arg0 + arg1)))
  | .SUB_I32 => do
      let (arg1, s) ← popInt32 { s0 with instrPtr := pc + 1 }
      let (arg0, s) ← popInt32 s
      .ok (pushVal s (.int32 (arg0 - arg1)))
  | .MUL_I32 => do
      let (arg1, s) ← popInt32 { s0 with instrPtr := pc + 1 }
      let (arg0, s) ← popInt32 s
      .ok (pushVal s (.int32 (arg0 * arg1)))
  | .LT_I32 => do
      let (arg1, s) ← popInt32 { s0 with instrPtr := pc + 1 }
      let (arg0, s) ← popInt32 s
      .ok (pushBool s (arg0 < arg1))
  | .LE_I32 => do
      let (arg1, s) ← popInt32 { s0 with instrPtr := pc + 1 }
      let (arg0, s) ← popInt32 s
      .ok (pushBool s (arg0 ≤ arg1))
  | .GT_I32 => do
      let (arg1, s) ← popInt32 { s0 with instrPtr := pc + 1 }
      let (arg0, s) ← popInt32 s
      .ok (pushBool s (arg1 < arg0))
  | .GE_I32 => do
      let (arg1, s) ← popInt32 { s0 with instrPtr := pc + 1 }
      let (arg0, s) ← popInt32 s
      .ok (pushBool s (arg1 ≤ arg0))
  | .EQ_I32 => do
      let (arg1, s) ← popInt32 { s0 with instrPtr := pc + 1 }
      let (arg0, s) ← popInt32 s
      .ok (pushBool s (arg0 = arg1))
  | .EQ_BOOL => do
      let (arg1, s) ← popBool { s0 with instrPtr := pc + 1 }
      let (arg0, s) ← popBool s
      .ok (pushBool s (arg0 = arg1))
  | .HAS_TAG =>
      match s0.emit.code (pc + 1) with
      | .tagImm t =>
          let (v, s) := popVal { s0 with instrPtr := pc + 2 }
          .ok (pushBool s (v.getTag = t))
      | _ => .fatal
  | .STR_LEN => do
      let (strRef, s) ← popStr { s0 with instrPtr := pc + 1 }
      .ok (pushVal s (.int32 (s.heap.strHeap strRef).length))
  | .GET_CHAR => do
      let (idx, s) ← popInt32 { s0 with instrPtr := pc + 1 }
      let (strRef, s) ← popStr s
      let contents := s.heap.strHeap strRef
      if idx < 0 ∨ (contents.length : Int) ≤ idx then
        .err .indexOutOfBounds s
      else
        let ch := (contents.getD idx.toNat (Char.ofNat 0)).toNat
        if s.charStrings ch = .boolV false then
          let newContents : List Char :=
            if ch = 0 then [] else [Char.ofNat ch]
          let newRef := s.heap.strCount
          let s := { s with
            heap := { s.heap with
              strHeap := Function.update s.heap.strHeap newRef newContents
              strCount := newRef + 1 }
            charStrings :=
              Function.update s.charStrings ch (.strV newRef) }
          .ok (pushVal s (s.charStrings ch))
        else
          .ok (pushVal s (s.charStrings ch))
  | .GET_CHAR_CODE => do
      let (idx, s) ← popInt32 { s0 with instrPtr := pc + 1 }
      let (strRef, s) ← popStr s
      let contents := s.heap.strHeap strRef
      if idx < 0 ∨ (contents.length : Int) ≤ idx then
        .err .indexOutOfBounds s
      else
        .ok (pushVal s (.int32 (contents.getD idx.toNat (Char.ofNat 0)).toNat))
  | .STR_CAT => do
      let (a, s) ← popStr { s0 with instrPtr := pc + 1 }
      let (b, s) ← popStr s
      let newRef := s.heap.strCount
      let s := { s with heap := { s.heap with
        strHeap := Function.update s.heap.strHeap newRef
          (s.heap.strHeap b ++ s.heap.strHeap a)
        strCount := newRef + 1 } }
      .ok (pushVal s (.strV newRef))
  | .EQ_STR => do
      let (arg1, s) ← popStr { s0 with instrPtr := pc + 1 }
      let (arg0, s) ← popStr s
      .ok (pushBool s (s.heap.strHeap arg0 = s.heap.strHeap arg1))
  | .NEW_OBJECT => do
      let (_, s) ← popInt32 { s0 with instrPtr := pc + 1 }
      let newRef := s.heap.objCount
      let s := { s with heap := { s.heap with
        objHeap := Function.update s.heap.objHeap newRef []
        objCount := newRef + 1 } }
      .ok (pushVal s (.objV newRef))
  | .HAS_FIELD => do
      let (fieldRef, s) ← popStr { s0 with instrPtr := pc + 1 }
      let (oref, s) ← popObj s
      .ok (pushBool s
        (hasFieldList (s.heap.objHeap oref) (s.heap.strHeap fieldRef)))
  | .SET_FIELD => do
      let (v, s) ← Res.ok (popVal { s0 with instrPtr := pc + 1 })
      let (fieldRef, s) ← popStr s
      let (oref, s) ← popObj s
      let fname := s.heap.strHeap fieldRef
      if isValidIdent fname then
        .ok { s with heap := { s.heap with
          objHeap := Function.update s.heap.objHeap oref
            (setFieldList (s.heap.objHeap oref) fname v) } }
      else
        .err (.invalidFieldName fname) s
  | .GET_FIELD => do
      let (fieldRef, s) ← popStr { s0 with instrPtr := pc + 1 }
      let (oref, s) ← popObj s
      let fname := s.heap.strHeap fieldRef
      match lookupField (s.heap.objHeap oref) fname with
      | some v => .ok (pushVal s v)
      | none => .err (.missingField fname) s
  | .EQ_OBJ =>
      let (arg1, s) := popVal { s0 with instrPtr := pc + 1 }
      let (arg0, s) := popVal s
      .ok (pushBool s (arg0 = arg1))
  | .NEW_ARRAY => do
      let (_, s) ← popInt32 { s0 with instrPtr := pc + 1 }
      let newRef := s.heap.arrCount
      let s := { s with heap := { s.heap with
        arrHeap := Function.update s.heap.arrHeap newRef []
        arrCount := newRef + 1 } }
      .ok (pushVal s (.arrV newRef))
  | .ARRAY_LEN =>
      match popVal { s0 with instrPtr := pc + 1 } with
      | (.arrV aref, s) =>
          .ok (pushVal s (.int32 (s.heap.arrHeap aref).length))
      | _ => .fatal
  | .ARRAY_PUSH =>
      let (v, s) := popVal { s0 with instrPtr := pc + 1 }
      match popVal s with
      | (.arrV aref, s) =>
          .ok { s with heap := { s.heap with
            arrHeap := Function.update s.heap.arrHeap aref
              (s.heap.arrHeap aref ++ [v]) } }
      | _ => .fatal
  | .SET_ELEM =>
      let (v, s) := popVal { s0 with instrPtr := pc + 1 }
      match popInt32 s with
      | .ok (idx, s) =>
          match popVal s with
          | (.arrV aref, s) =>
              if idx < 0 ∨ ((s.heap.arrHeap aref).length : Int) ≤ idx then
                .err .indexOutOfBounds s
              else
                .ok { s with heap := { s.heap with
                  arrHeap := Function.update s.heap.arrHeap aref
                    ((s.heap.arrHeap aref).set idx.toNat v) } }
          | _ => .fatal
      | .err er s => .err er s
      | .fatal => .fatal
      | .blocked => .blocked
  | .GET_ELEM =>
      match popInt32 { s0 with instrPtr := pc + 1 } with
      | .ok (idx, s) =>
          match popVal s with
          | (.arrV aref, s) =>
              if idx < 0 ∨ ((s.heap.arrHeap aref).length : Int) ≤ idx then
                .err .indexOutOfBounds s
              else
                .ok (pushVal s
                  ((s.heap.arrHeap aref).getD idx.toNat .undef))
          | _ => .fatal
      | .err er s => .err er s
      | .fatal => .fatal
      | .blocked => .blocked
  | .JUMP_STUB =>
      match s0.emit.code (pc + 1) with
      | .ptrImm p =>
          if p < codeHeapLimit then .fatal
          else
            let dstVid := p - codeHeapLimit
            let s := { s0 with instrPtr := pc + 2 }
            match (if (s.reg.vers dstVid).startPtr = none then
                     compileInState dstVid s else .ok s) with
            | .ok s1 =>
                match (s1.reg.vers dstVid).startPtr with
                | some a =>
                    .ok { s1 with
                      emit := { s1.emit with
                        code := Function.update
                          (Function.update s1.emit.code pc (.op .JUMP))
                          (pc + 1) (.ptrImm a) }
                      instrPtr := a }
                | none => .fatal
            | .err er s1 => .err er s1
            | .fatal => .fatal
            | .blocked => .blocked
      | _ => .fatal
  | .JUMP =>
      match s0.emit.code (pc + 1) with
      | .ptrImm p => .ok { s0 with instrPtr := p }
      | _ => .fatal
  | .IF_TRUE =>
      match s0.emit.code (pc + 1), s0.emit.code (pc + 2) with
      | .ptrImm pt, .ptrImm pe =>
          let (arg0, s) := popVal { s0 with instrPtr := pc + 3 }
          if arg0 = .boolV true then
            if pt < codeHeapLimit then .ok { s with instrPtr := pt }
            else
              let thenVid := pt - codeHeapLimit
              match (if (s.reg.vers thenVid).startPtr = none then
                       compileInState thenVid s else .ok s) with
              | .ok s1 =>
                  match (s1.reg.vers thenVid).startPtr with
                  | some a =>
                      .ok { s1 with
                        emit := { s1.emit with
                          code := Function.update s1.emit.code (pc + 1)
                            (.ptrImm a) }
                        instrPtr := a }
                  | none => .fatal
              | .err er s1 => .err er s1
              | .fatal => .fatal
              | .blocked => .blocked
          else
            if pe < codeHeapLimit then .ok { s with instrPtr := pe }
            else
              let elseVid := pe - codeHeapLimit
              match (if (s.reg.vers elseVid).startPtr = none then
                       compileInState elseVid s else .ok s) with
              | .ok s1 =>
                  match (s1.reg.vers elseVid).startPtr with
                  | some a =>
                      .ok { s1 with
                        emit := { s1.emit with
                          code := Function.update s1.emit.code (pc + 2)
                            (.ptrImm a) }
                        instrPtr := a }
                  | none => .fatal
              | .err er s1 => .err er s1
              | .fatal => .fatal
              | .blocked => .blocked
      | _, _ => .fatal
  | .CALL =>
      match s0.emit.code (pc + 1), s0.emit.code (pc + 2) with
      | .u16 numArgs, .ptrImm p =>
          if p < codeHeapLimit then .fatal
          else
            let retVid := p - codeHeapLimit
            let (callee, s) := popVal { s0 with instrPtr := pc + 3 }
            if stackSize s < numArgs then
              .err .stackUnderflowCall s
            else
              match callee with
              | .objV funRef => funCall pc funRef numArgs retVid s
              | .hostFnV _ => .blocked
              | _ => .err .invalidCallee s
      | _, _ => .fatal
  | .THROW =>
      -- the THROW handler pops the exception value and asserts false
      let (_, _) := popVal { s0 with instrPtr := pc + 1 }
      .fatal
  | .IMPORT =>
      -- invokes the host import collaborator: outside the modelled core
      .blocked
  | .ABORT =>
      -- prints the source position and message, then exits the process
      .fatal
  | .GET_TAG =>
      -- no handler exists in the loop: the default case asserts false
      .fatal
  | .RET =>
      -- RET is handled in execStep because it may exit the loop
      .fatal
  | _ =>
      -- floating-point arithmetic and conversions: outside the modelled core
      .blocked

/-- One dispatch of the interpreter loop: read the opcode at the
instruction pointer and run its handler.  RET is handled here because it
may exit the loop: it pops the return value, the return version pointer,
the saved frame pointer and the saved stack pointer in that order,
restores the frame and stack pointers, and either exits the loop (null
return version) or pushes the return value, compiles the return version
if needed and jumps to it. -/
def execStep (s0 : VMState) : StepRes :=
  let pc := s0.instrPtr
  match s0.emit.code pc with
  | .op .RET =>
      let (retVal, s) := popVal { s0 with instrPtr := pc + 1 }
      let (retVerV, s) := popVal s
      let (fpV, s) := popVal s
      let (spV, s) := popVal s
      match fpV, spV with
      | .rawPtr (.stackAddr f), .rawPtr (.stackAddr p) =>
          let s := { s with fp := f, sp := p }
          match retVerV with
          | .rawPtr .null => .ret retVal s
          | .rawPtr (.verAddr retVid) =>
              let s := pushVal s retVal
              match (if (s.reg.vers retVid).startPtr = none then
                       compileInState retVid s else .ok s) with
              | .ok s1 =>
                  match (s1.reg.vers retVid).startPtr with
                  | some a => .next { s1 with instrPtr := a }
                  | none => .fatal
              | .err er s1 => .err er s1
              | .fatal => .fatal
              | .blocked => .blocked
          | _ => .fatal
      | _, _ => .fatal
  | .op o => (execInstr o pc s0).toStep
  | _ => .fatal

/-- The interpreter loop execCode with explicit fuel: repeat execStep
until the loop exits with a return value; a thrown RunError unwinds out
of the loop to the caller. -/
def execCode : Nat → VMState → Res (Value × VMState)
  | 0, _ => .blocked
  | fuel + 1, s =>
      match execStep s with
      | .next s1 => execCode fuel s1
      | .ret v s1 => .ok (v, s1)
      | .err er s1 => .err er s1
      | .fatal => .fatal
      | .blocked => .blocked

/-! ## The call gateway -/

/-- Store the call arguments into the callee locals: framePtr[-i]
receives args[i]. -/
def writeArgs (fp : Int) : Nat → List Value → (Int → Value) → (Int → Value)
  | _, [], stk => stk
  | i, a :: rest, stk =>
      writeArgs fp (i + 1) rest (Function.update stk (fp - i) a)

/-- The part of callFun before the interpreter loop is entered: check the
argument and local counts (debug assertion), record the pre-call stack
size, save the previous instruction pointer on the stack, build the
top-level frame (locals, saved stack and frame pointers, null return
version), copy the arguments into the locals, and compile the entry
version of the callee unconditionally.  Returns the pre-call stack size
and the state positioned at the entry version. -/
def callFunEnter (funRef : Nat) (args : List Value) (s : VMState) :
    Res (Int × VMState) := do
  let numParams ←
    match eGetInt32 s.heap funRef (strLit "num_params") s.reg with
    | .ok n => Res.ok n
    | .err er _ => Res.err er s
    | .fatal => Res.fatal
  let numLocals ←
    match eGetInt32 s.heap funRef (strLit "num_locals") s.reg with
    | .ok n => Res.ok n
    | .err er _ => Res.err er s
    | .fatal => Res.fatal
  if (args.length : Int) > numParams ∨ numLocals < numParams then
    .fatal
  else
    let preCallSz := stackSize s
    let s := pushVal s (.rawPtr (.codeAddr s.instrPtr))
    let prevSp := s.sp
    let prevFp := s.fp
    let s := { s with fp := s.sp - 1 }
    let s := { s with sp := s.sp - numLocals }
    let s := pushVal s (.rawPtr (.stackAddr prevSp))
    let s := pushVal s (.rawPtr (.stackAddr prevFp))
    let s := pushVal s (.rawPtr .null)
    let s := { s with stk := writeArgs s.fp 0 args s.stk }
    let entryBB ←
      match eGetObj s.heap funRef (strLit "entry") s.reg with
      | .ok o => Res.ok o
      | .err er _ => Res.err er s
      | .fatal => Res.fatal
    let (entryVid, s) ←
      match getBlockVersion funRef entryBB s.reg with
      | .ok (vid, r) => Res.ok (vid, { s with reg := r })
      | .err er _ => Res.err er s
      | .fatal => Res.fatal
    let s ← compileInState entryVid s
    match (s.reg.vers entryVid).startPtr with
    | none => .fatal
    | some a => .ok (preCallSz, { s with instrPtr := a })

/-- The part of callFun after the interpreter loop exits: restore the
previous instruction pointer from the stack and check that the stack size
matches its pre-call value (else the stack-imbalance RunError). -/
def callFunLeave (preCallSz : Int) (retVal : Value) (s : VMState) :
    Res (Value × VMState) :=
  let (ipV, s) := popVal s
  match ipV with
  | .rawPtr (.codeAddr ip) =>
      let s := { s with instrPtr := ip }
      if stackSize s ≠ preCallSz then .err .stackImbalance s
      else .ok (retVal, s)
  | _ => .fatal

/-- callFun: the external entry that seeds a frame for a function called
with a list of argument values, runs the interpreter loop to completion
and restores the prior VM context (the source function is factored here
into the pre-loop part, the loop and the post-loop part).  Note that the
pre-loop part compiles the callee's entry version unconditionally. -/
def callFun (funRef : Nat) (args : List Value) (fuel : Nat) (s : VMState) :
    Res (Value × VMState) := do
  let (preCallSz, s) ← callFunEnter funRef args s
  let (retVal, s) ← execCode fuel s
  callFunLeave preCallSz retVal s

/-! ## Initial state (initInterp) and concrete program images -/

/-- The empty heap. -/
def emptyHeap : Heap :=
  { strHeap := fun _ => [], strCount := 0,
    objHeap := fun _ => [], objCount := 0,
    arrHeap := fun _ => [], arrCount := 0 }

/-- The freshly allocated code heap (uninitialised cells hold a
non-opcode word). -/
def initEmit : EmitState := { code := fun _ => .u16 0, codeAlloc := 0 }

/-- The empty registry. -/
def initReg : Registry :=
  { vers := fun _ => { funRef := 0, blockRef := 0 },
    versCount := 0,
    versionOf := fun _ => none,
    instrMap := fun _ => none,
    retMap := fun _ => none }

/-- initInterp: the initial interpreter state over a given program
image: empty code heap and registry, stack pointer at the stack base, and
the single-character cache filled with the FALSE sentinel. -/
def initState (h : Heap) : VMState :=
  { heap := h,
    emit := initEmit,
    reg := initReg,
    stk := fun _ => .undef,
    sp := stackBaseAddr,
    fp := stackBaseAddr,
    instrPtr := 0,
    charStrings := fun _ => .boolV false }

/-- A concrete program image: a function main that pushes int32 777 and
returns it (the shape of tests/vm/ex_ret_cst).  Object 0 is the function,
object 1 its entry block, objects 2 and 3 the push and ret instructions,
string 0 and 1 the op names. -/
def retCstHeap : Heap :=
  { strHeap := fun r =>
      if r = 0 then strLit "push"
      else if r = 1 then strLit "ret"
      else []
    strCount := 2
    objHeap := fun r =>
      if r = 0 then
        [(strLit "entry", .objV 1), (strLit "num_params", .int32 0),
         (strLit "num_locals", .int32 0)]
      else if r = 1 then [(strLit "instrs", .arrV 0)]
      else if r = 2 then [(strLit "op", .strV 0), (strLit "val", .int32 777)]
      else if r = 3 then [(strLit "op", .strV 1)]
      else []
    objCount := 4
    arrHeap := fun r => if r = 0 then [.objV 2, .objV 3] else []
    arrCount := 1 }

/-- Extract the continuation state of a step (used to chain concrete
executions through closed definitions). -/
def stepExtract (s : VMState) : VMState :=
  match execStep s with
  | .next t => t
  | _ => s

/-- Extract the state after a successful callFunEnter. -/
def enterExtract (funRef : Nat) (args : List Value) (s : VMState) :
    VMState :=
  match callFunEnter funRef args s with
  | .ok (_, t) => t
  | _ => s

/-- Extract the state a loop exit leaves behind. -/
def retExtract (s : VMState) : VMState :=
  match execStep s with
  | .ret _ t => t
  | _ => s

/-- Extract the state a callFunLeave success leaves behind. -/
def leaveExtract (pre : Int) (v : Value) (s : VMState) : VMState :=
  match callFunLeave pre v s with
  | .ok (_, t) => t
  | _ => s

/-- One unfolding of the interpreter loop. -/
theorem execCode_succ (fuel : Nat) (s : VMState) :
    execCode (fuel + 1) s =
      match execStep s with
      | .next s1 => execCode fuel s1
      | .ret v s1 => .ok (v, s1)
      | .err er s1 => .err er s1
      | .fatal => .fatal
      | .blocked => .blocked := rfl

/-- Build a code heap from a word list (words at addresses 0, 1, ...). -/
def mkCode (ws : List CodeWord) : Nat → CodeWord :=
  fun a => ws.getD a (.u16 0)

/-- Build a stack-cell array whose values, listed top first, start at the
given stack-pointer address. -/
def mkStk (sp : Int) (top : List Value) : Int → Value :=
  fun a => if 0 ≤ a - sp then top.getD (a - sp).toNat Value.undef
    else Value.undef

/-!
## Claim theorems

Each claim of the specification is settled below.  Concrete machine states
used as witnesses or counterexamples are staged through closed
definitions so that every evaluation step is small.
-/

/-- C9: for every executed IF_TRUE, the popped value is compared only
against the distinguished TRUE constant; control transfers to the then
target exactly when the value equals TRUE and to the else target for
every other value, including non-boolean values, without raising any
error. -/
theorem C9_if_true_compares_only_against_true (s : VMState) (pt pe : Nat)
    (hOp : s.emit.code s.instrPtr = .op .IF_TRUE)
    (hThen : s.emit.code (s.instrPtr + 1) = .ptrImm pt)
    (hElse : s.emit.code (s.instrPtr + 2) = .ptrImm pe)
    (hPt : pt < codeHeapLimit) (hPe : pe < codeHeapLimit) :
    execStep s = .next { s with
      instrPtr := if s.stk s.sp = .boolV true then pt else pe,
      sp := s.sp + 1 } := by
  simp only [execStep, hOp, execInstr, hThen, hElse, popVal, Res.toStep]
  by_cases hc : s.stk s.sp = Value.boolV true
  · simp only [if_pos hc, if_pos hPt]
  · simp only [if_neg hc, if_pos hPe]

/-- The concrete IF_TRUE witness state: both targets patched, and a
non-boolean value (int32 0) on top of the stack. -/
def c9s : VMState :=
  { heap := emptyHeap,
    emit := { code := mkCode [.op .IF_TRUE, .ptrImm 50, .ptrImm 60],
              codeAlloc := 3 },
    reg := initReg,
    stk := mkStk 1000 [.int32 0],
    sp := 1000, fp := 1001, instrPtr := 0,
    charStrings := fun _ => .boolV false }

/-- Witness for C9: the non-boolean popped value int32 0 transfers to the
else target without an error. -/
theorem C9_witness :
    c9s.emit.code c9s.instrPtr = .op .IF_TRUE ∧
    c9s.emit.code (c9s.instrPtr + 1) = .ptrImm 50 ∧
    c9s.emit.code (c9s.instrPtr + 2) = .ptrImm 60 ∧
    execStep c9s = .next { c9s with
      instrPtr := if c9s.stk c9s.sp = .boolV true then 50 else 60,
      sp := c9s.sp + 1 } :=
  ⟨by decide, by decide, by decide,
   C9_if_true_compares_only_against_true c9s 50 60 (by decide) (by decide)
     (by decide) (by decide) (by decide)⟩

/-- C7: executing CALL when fewer than num_args operand values are
present on the stack (after the callee pop) raises the recoverable
stack-underflow RunError, and the error unwinds out of the interpreter
loop to the caller of the loop rather than terminating the process. -/
theorem C7_call_stack_underflow_recoverable (s : VMState)
    (numArgs retVid : Nat)
    (hOp : s.emit.code s.instrPtr = .op .CALL)
    (hArgs : s.emit.code (s.instrPtr + 1) = .u16 numArgs)
    (hRet : s.emit.code (s.instrPtr + 2) = .ptrImm (codeHeapLimit + retVid))
    (hUnder : stackSize s - 1 < (numArgs : Int)) :
    execStep s = .err .stackUnderflowCall
      { s with instrPtr := s.instrPtr + 3, sp := s.sp + 1 } ∧
    ∀ fuel, execCode (fuel + 1) s = .err .stackUnderflowCall
      { s with instrPtr := s.instrPtr + 3, sp := s.sp + 1 } := by
  have hp : ¬ (codeHeapLimit + retVid < codeHeapLimit) := by omega
  have hcond :
      stackSize { s with instrPtr := s.instrPtr + 3, sp := s.sp + 1 } <
        (numArgs : Int) := by
    simp only [stackSize] at hUnder ⊢
    omega
  have hstep : execStep s = .err .stackUnderflowCall
      { s with instrPtr := s.instrPtr + 3, sp := s.sp + 1 } := by
    simp only [execStep, hOp, execInstr, hArgs, hRet, popVal, Res.toStep]
    rw [if_neg hp, if_pos hcond]
  exact ⟨hstep, fun fuel => by rw [execCode_succ, hstep]⟩

/-- The concrete CALL underflow witness state: a CALL with num_args 2 and
only the callee on the stack. -/
def c7s : VMState :=
  { heap := emptyHeap,
    emit := { code := mkCode [.op .CALL, .u16 2, .ptrImm (verPtrOf 0)],
              codeAlloc := 3 },
    reg := initReg,
    stk := mkStk stackBaseAddr [],
    sp := stackBaseAddr - 1, fp := stackBaseAddr, instrPtr := 0,
    charStrings := fun _ => .boolV false }

/-- Witness for C7: the underflowing CALL yields the stack-underflow
RunError and the loop propagates it. -/
theorem C7_witness :
    c7s.emit.code c7s.instrPtr = .op .CALL ∧
    stackSize c7s - 1 < (2 : Int) ∧
    execStep c7s = .err .stackUnderflowCall
      { c7s with instrPtr := c7s.instrPtr + 3, sp := c7s.sp + 1 } ∧
    execCode 4 c7s = .err .stackUnderflowCall
      { c7s with instrPtr := c7s.instrPtr + 3, sp := c7s.sp + 1 } :=
  ⟨by decide, by decide,
   (C7_call_stack_underflow_recoverable c7s 2 0 (by decide) (by decide)
     (by decide) (by decide)).1,
   (C7_call_stack_underflow_recoverable c7s 2 0 (by decide) (by decide)
     (by decide) (by decide)).2 3⟩

/-- C10: when CALL fails with the stack-underflow or invalid-callee
RunError, the callee value has already been popped, so the stack pointer
of the state at throw time is one above its value before the CALL (the
stack is not left unchanged). -/
theorem C10_call_error_pops_callee (s : VMState) (numArgs retVid : Nat)
    (hOp : s.emit.code s.instrPtr = .op .CALL)
    (hArgs : s.emit.code (s.instrPtr + 1) = .u16 numArgs)
    (hRet : s.emit.code (s.instrPtr + 2) = .ptrImm (codeHeapLimit + retVid)) :
    (stackSize s - 1 < (numArgs : Int) →
      execStep s = .err .stackUnderflowCall
        { s with instrPtr := s.instrPtr + 3, sp := s.sp + 1 }) ∧
    ((numArgs : Int) ≤ stackSize s - 1 →
      (s.stk s.sp).getTag ≠ .object → (s.stk s.sp).getTag ≠ .hostfn →
      execStep s = .err .invalidCallee
        { s with instrPtr := s.instrPtr + 3, sp := s.sp + 1 }) ∧
    s.sp + 1 ≠ s.sp := by
  have hp : ¬ (codeHeapLimit + retVid < codeHeapLimit) := by omega
  refine ⟨fun hUnder => ?_, fun hOk h1 h2 => ?_, by omega⟩
  · exact (C7_call_stack_underflow_recoverable s numArgs retVid hOp hArgs
      hRet hUnder).1
  · have hcond :
        ¬ (stackSize { s with instrPtr := s.instrPtr + 3, sp := s.sp + 1 } <
            (numArgs : Int)) := by
      simp only [stackSize] at hOk ⊢
      omega
    simp only [execStep, hOp, execInstr, hArgs, hRet, popVal, Res.toStep]
    rw [if_neg hp, if_neg hcond]
    cases hv : s.stk s.sp <;> simp_all [Value.getTag]

/-- The concrete invalid-callee witness state: a CALL with num_args 0
whose popped callee is int32 5. -/
def c10s : VMState :=
  { heap := emptyHeap,
    emit := { code := mkCode [.op .CALL, .u16 0, .ptrImm (verPtrOf 0)],
              codeAlloc := 3 },
    reg := initReg,
    stk := mkStk 1000 [.int32 5],
    sp := 1000, fp := 1001, instrPtr := 0,
    charStrings := fun _ => .boolV false }

/-- Witness for C10: the invalid callee int32 5 is popped before the
invalid-callee RunError is raised. -/
theorem C10_witness :
    (0 : Int) ≤ stackSize c10s - 1 ∧
    (c10s.stk c10s.sp).getTag = .int32 ∧
    execStep c10s = .err .invalidCallee
      { c10s with instrPtr := c10s.instrPtr + 3, sp := c10s.sp + 1 } ∧
    c10s.sp + 1 ≠ c10s.sp :=
  ⟨by decide, by decide,
   (C10_call_error_pops_callee c10s 0 0 (by decide) (by decide)
      (by decide)).2.1 (by decide) (by decide) (by decide),
   (C10_call_error_pops_callee c10s 0 0 (by decide) (by decide)
      (by decide)).2.2⟩

/-- Looking up the field just written by setFieldList yields the written
value. -/
theorem lookupField_setFieldList (l : List (List Char × Value))
    (n : List Char) (v : Value) :
    lookupField (setFieldList l n v) n = some v := by
  induction l with
  | nil => simp [setFieldList, lookupField]
  | cons kv rest ih =>
      obtain ⟨k, w⟩ := kv
      by_cases hk : k = n
      · simp [setFieldList, lookupField, hk]
      · simp [setFieldList, lookupField, hk, ih]

/-- C6 (amended): get_field on a target lacking the named field fails
with the recoverable missing-field RunError; set_field on a target
lacking the named field does not fail with a missing-field error: with a
valid identifier it creates the field (the only set_field failure is the
invalid-field-name RunError). -/
theorem C6_amended_field_errors :
    (∀ (s : VMState) (nref oref : Nat),
      s.emit.code s.instrPtr = .op .GET_FIELD →
      s.stk s.sp = .strV nref →
      s.stk (s.sp + 1) = .objV oref →
      lookupField (s.heap.objHeap oref) (s.heap.strHeap nref) = none →
      execStep s = .err (.missingField (s.heap.strHeap nref))
        { s with instrPtr := s.instrPtr + 1, sp := s.sp + 2 }) ∧
    (∀ (s : VMState) (nref oref : Nat) (v : Value),
      s.emit.code s.instrPtr = .op .SET_FIELD →
      s.stk s.sp = v →
      s.stk (s.sp + 1) = .strV nref →
      s.stk (s.sp + 2) = .objV oref →
      isValidIdent (s.heap.strHeap nref) = true →
      execStep s = .next { s with
        instrPtr := s.instrPtr + 1, sp := s.sp + 3,
        heap := { s.heap with
          objHeap := Function.update s.heap.objHeap oref
            (setFieldList (s.heap.objHeap oref) (s.heap.strHeap nref) v) } } ∧
      lookupField
        (setFieldList (s.heap.objHeap oref) (s.heap.strHeap nref) v)
        (s.heap.strHeap nref) = some v) ∧
    (∀ (s : VMState) (nref oref : Nat),
      s.emit.code s.instrPtr = .op .SET_FIELD →
      s.stk (s.sp + 1) = .strV nref →
      s.stk (s.sp + 2) = .objV oref →
      isValidIdent (s.heap.strHeap nref) = false →
      execStep s = .err (.invalidFieldName (s.heap.strHeap nref))
        { s with instrPtr := s.instrPtr + 1, sp := s.sp + 3 }) := by
  refine ⟨fun s nref oref hOp hTop hSnd hMiss => ?_,
          fun s nref oref v hOp hTop hSnd hTrd hValid => ?_,
          fun s nref oref hOp hSnd hTrd hInvalid => ?_⟩
  · simp only [execStep, hOp, execInstr, popVal, hTop, hSnd, popStr, popObj,
      Res.toStep, hMiss, Res.ok_bind_r, Res.err_bind_r, Res.fatal_bind_r,
      Res.blocked_bind, Res.pure_eq_r]
    norm_num
    omega
  · refine ⟨?_, lookupField_setFieldList _ _ _⟩
    have hTrd2 : s.stk (s.sp + 1 + 1) = Value.objV oref := by
      rw [show s.sp + 1 + 1 = s.sp + 2 by ring]
      exact hTrd
    simp only [execStep, hOp, execInstr, popVal, hTop, hSnd, hTrd2, popStr,
      popObj, Res.toStep, hValid, if_true, Res.ok_bind_r, Res.err_bind_r,
      Res.fatal_bind_r, Res.blocked_bind, Res.pure_eq_r]
    norm_num
    omega
  · have hTrd2 : s.stk (s.sp + 1 + 1) = Value.objV oref := by
      rw [show s.sp + 1 + 1 = s.sp + 2 by ring]
      exact hTrd
    simp only [execStep, hOp, execInstr, popVal, hSnd, hTrd2, popStr,
      popObj, Res.toStep, Res.ok_bind_r, Res.err_bind_r,
      Res.fatal_bind_r, Res.blocked_bind, Res.pure_eq_r, hInvalid]
    norm_num
    omega

/-- The concrete set_field counterexample state: object 0 has no fields
at all and set_field writes field x with value int32 7. -/
def c6s : VMState :=
  { heap := { emptyHeap with
      strHeap := fun r => if r = 0 then strLit "x" else [],
      strCount := 1,
      objCount := 1 },
    emit := { code := mkCode [.op .SET_FIELD], codeAlloc := 1 },
    reg := initReg,
    stk := mkStk 1000 [.int32 7, .strV 0, .objV 0],
    sp := 1000, fp := 1003, instrPtr := 0,
    charStrings := fun _ => .boolV false }

/-- Counterexample for C6 as stated: executing set_field on a target
object that lacks the named field x does not fail with a missing-field
error; it succeeds and creates the field. -/
theorem C6_counterexample :
    hasFieldList (c6s.heap.objHeap 0) (strLit "x") = false ∧
    execStep c6s = .next (stepExtract c6s) ∧
    (∀ er t, execStep c6s = .err er t → False) ∧
    hasFieldList ((stepExtract c6s).heap.objHeap 0) (strLit "x") = true := by
  have hnext : execStep c6s = .next (stepExtract c6s) := by rfl
  refine ⟨by decide, hnext, fun er t h => ?_, by decide⟩
  rw [hnext] at h
  exact StepRes.noConfusion h

/-- Witness for C6 (amended): get_field on object 0, which lacks field
x, raises the recoverable missing-field RunError. -/
def c6gs : VMState :=
  { heap := { emptyHeap with
      strHeap := fun r => if r = 0 then strLit "x" else [],
      strCount := 1,
      objCount := 1 },
    emit := { code := mkCode [.op .GET_FIELD], codeAlloc := 1 },
    reg := initReg,
    stk := mkStk 1000 [.strV 0, .objV 0],
    sp := 1000, fp := 1002, instrPtr := 0,
    charStrings := fun _ => .boolV false }

/-- C8: the 256-entry single-character memo interns one Value per byte:
a get_char execution leaves the memo holding the Value it pushed, and any
later get_char execution over the same memo whose byte result is equal
(even from a different string or index) pushes the identical Value. -/
theorem C8_get_char_interning (s : VMState) (i1 : Int) (r1 : Nat)
    (hOp1 : s.emit.code s.instrPtr = .op .GET_CHAR)
    (hTop1 : s.stk s.sp = .int32 i1)
    (hSnd1 : s.stk (s.sp + 1) = .strV r1)
    (hIdx1 : ¬ (i1 < 0 ∨ ((s.heap.strHeap r1).length : Int) ≤ i1)) :
    ∃ s1, execStep s = .next s1 ∧
      (∀ (t : VMState) (i2 : Int) (r2 : Nat),
        t.charStrings = s1.charStrings →
        t.emit.code t.instrPtr = .op .GET_CHAR →
        t.stk t.sp = .int32 i2 →
        t.stk (t.sp + 1) = .strV r2 →
        ¬ (i2 < 0 ∨ ((t.heap.strHeap r2).length : Int) ≤ i2) →
        ((t.heap.strHeap r2).getD i2.toNat (Char.ofNat 0)).toNat =
          ((s.heap.strHeap r1).getD i1.toNat (Char.ofNat 0)).toNat →
        ∃ t1, execStep t = .next t1 ∧ t1.stk t1.sp = s1.stk s1.sp) := by
  by_cases hc : s.charStrings
      ((s.heap.strHeap r1).getD i1.toNat (Char.ofNat 0)).toNat =
      Value.boolV false
  · refine ⟨_, by
      simp only [execStep, hOp1, execInstr, popVal, hTop1, hSnd1, popInt32,
        popStr, Res.toStep, Res.ok_bind_r, Res.err_bind_r, Res.fatal_bind_r,
        Res.blocked_bind, Res.pure_eq_r, if_neg hIdx1, if_pos hc, pushVal]
      rfl, ?_⟩
    intro t i2 r2 hMemo hOpT hTopT hSndT hIdxT hBy
    have hMemoT : t.charStrings
        ((t.heap.strHeap r2).getD i2.toNat (Char.ofNat 0)).toNat =
        Value.strV s.heap.strCount := by
      rw [hBy, hMemo]
      simp
    have hcT : ¬ (t.charStrings
        ((t.heap.strHeap r2).getD i2.toNat (Char.ofNat 0)).toNat =
        Value.boolV false) := by
      rw [hMemoT]
      simp
    refine ⟨_, by
      simp only [execStep, hOpT, execInstr, popVal, hTopT, hSndT, popInt32,
        popStr, Res.toStep, Res.ok_bind_r, Res.err_bind_r, Res.fatal_bind_r,
        Res.blocked_bind, Res.pure_eq_r, if_neg hIdxT, if_neg hcT, pushVal]
      rfl, ?_⟩
    simp only [Function.update_same]
    exact hMemoT
  · refine ⟨_, by
      simp only [execStep, hOp1, execInstr, popVal, hTop1, hSnd1, popInt32,
        popStr, Res.toStep, Res.ok_bind_r, Res.err_bind_r, Res.fatal_bind_r,
        Res.blocked_bind, Res.pure_eq_r, if_neg hIdx1, if_neg hc, pushVal]
      rfl, ?_⟩
    intro t i2 r2 hMemo hOpT hTopT hSndT hIdxT hBy
    have hMemoT : t.charStrings
        ((t.heap.strHeap r2).getD i2.toNat (Char.ofNat 0)).toNat =
        s.charStrings
          ((s.heap.strHeap r1).getD i1.toNat (Char.ofNat 0)).toNat := by
      rw [hBy, hMemo]
    have hcT : ¬ (t.charStrings
        ((t.heap.strHeap r2).getD i2.toNat (Char.ofNat 0)).toNat =
        Value.boolV false) := by
      rw [hMemoT]
      exact hc
    refine ⟨_, by
      simp only [execStep, hOpT, execInstr, popVal, hTopT, hSndT, popInt32,
        popStr, Res.toStep, Res.ok_bind_r, Res.err_bind_r, Res.fatal_bind_r,
        Res.blocked_bind, Res.pure_eq_r, if_neg hIdxT, if_neg hcT, pushVal]
      rfl, ?_⟩
    simp only [Function.update_same]
    exact hMemoT

/-- The concrete get_char witness state: strings ab (ref 0) and a
(ref 1); the first get_char reads byte a from string 0. -/
def c8s : VMState :=
  { heap := { emptyHeap with
      strHeap := (fun r =>
        if r = 0 then strLit "ab" else if r = 1 then strLit "a" else [])
      strCount := 2 },
    emit := { code := mkCode [.op .GET_CHAR], codeAlloc := 1 },
    reg := initReg,
    stk := mkStk 1000 [.int32 0, .strV 0],
    sp := 1000, fp := 1002, instrPtr := 0,
    charStrings := fun _ => .boolV false }

/-- The state after the first get_char execution. -/
def c8s1 : VMState := stepExtract c8s

/-- A second get_char over the carried memo, reading the equal byte a
from the different string 1. -/
def c8t : VMState :=
  { c8s1 with
    stk := mkStk 1000 [.int32 0, .strV 1]
    sp := 1000
    instrPtr := 0 }

/-- Witness for C8: two get_char executions whose results hold the same
byte, on two different strings, push the identical interned Value. -/
theorem C8_witness :
    ∃ s1, execStep c8s = .next s1 ∧
      ∃ t1, execStep c8t = .next t1 ∧ t1.stk t1.sp = s1.stk s1.sp := by
  obtain ⟨s1, hs1, hrest⟩ := C8_get_char_interning c8s 0 0 (by decide)
    (by decide) (by decide) (by decide)
  have hext : c8s1 = s1 := by
    unfold c8s1 stepExtract
    rw [hs1]
  have hMemo : c8t.charStrings = s1.charStrings := by
    rw [← hext]
    rfl
  obtain ⟨t1, ht1, heq⟩ := hrest c8t 0 1 hMemo (by decide) (by decide)
    (by decide) (by decide) (by decide)
  exact ⟨s1, hs1, t1, ht1, heq⟩

/-- C2: RET pops the return value, the return-version pointer, the saved
frame pointer and the saved stack pointer, in that order (the four cells
upward from the stack top), restores the frame and stack pointers, and
then: a null return version exits the loop yielding the return value to
the loop caller; a return version pointer pushes the return value on the
restored stack, compiles the version if it is not yet compiled, and jumps
to its start. -/
theorem C2_ret_restores_and_dispatches (s : VMState) (f p : Int)
    (hOp : s.emit.code s.instrPtr = .op .RET)
    (hFp : s.stk (s.sp + 2) = .rawPtr (.stackAddr f))
    (hSp : s.stk (s.sp + 3) = .rawPtr (.stackAddr p)) :
    (s.stk (s.sp + 1) = .rawPtr .null →
      execStep s = .ret (s.stk s.sp)
        { s with instrPtr := s.instrPtr + 1, sp := p, fp := f } ∧
      ∀ fuel, execCode (fuel + 1) s =
        .ok (s.stk s.sp,
          { s with instrPtr := s.instrPtr + 1, sp := p, fp := f })) ∧
    (∀ rvid a, s.stk (s.sp + 1) = .rawPtr (.verAddr rvid) →
      (s.reg.vers rvid).startPtr = some a →
      execStep s = .next { s with
        instrPtr := a
        sp := p - 1
        fp := f
        stk := Function.update s.stk (p - 1) (s.stk s.sp) }) ∧
    (∀ rvid r2 e2 a2, s.stk (s.sp + 1) = .rawPtr (.verAddr rvid) →
      (s.reg.vers rvid).startPtr = none →
      compile s.heap rvid s.reg s.emit = .ok (r2, e2) →
      (r2.vers rvid).startPtr = some a2 →
      execStep s = .next { s with
        instrPtr := a2
        sp := p - 1
        fp := f
        stk := Function.update s.stk (p - 1) (s.stk s.sp)
        reg := r2
        emit := e2 }) := by
  have hFp2 : s.stk (s.sp + 1 + 1) = Value.rawPtr (.stackAddr f) := by
    rw [show s.sp + 1 + 1 = s.sp + 2 by ring]
    exact hFp
  have hSp2 : s.stk (s.sp + 1 + 1 + 1) = Value.rawPtr (.stackAddr p) := by
    rw [show s.sp + 1 + 1 + 1 = s.sp + 3 by ring]
    exact hSp
  refine ⟨fun hNull => ?_, fun rvid a hVer hStart => ?_,
          fun rvid r2 e2 a2 hVer hStart hComp hStart2 => ?_⟩
  · have hstep : execStep s = .ret (s.stk s.sp)
        { s with instrPtr := s.instrPtr + 1, sp := p, fp := f } := by
      simp only [execStep, hOp, popVal, hNull, hFp2, hSp2]
    exact ⟨hstep, fun fuel => by rw [execCode_succ, hstep]⟩
  · simp only [execStep, hOp, popVal, hVer, hFp2, hSp2, pushVal, hStart,
      compileInState]
    simp [hStart]
  · simp only [execStep, hOp, popVal, hVer, hFp2, hSp2, pushVal, hStart,
      compileInState, if_true, hComp, hStart2]

/-- The concrete RET witness state: return value int32 9 with a null
return version (top-level return). -/
def c2s : VMState :=
  { heap := emptyHeap,
    emit := { code := mkCode [.op .RET], codeAlloc := 1 },
    reg := initReg,
    stk := mkStk 1000 [.int32 9, .rawPtr .null,
      .rawPtr (.stackAddr 995), .rawPtr (.stackAddr 996)],
    sp := 1000, fp := 999, instrPtr := 0,
    charStrings := fun _ => .boolV false }

/-- Witness for C2: the top-level RET restores the saved pointers and
exits the loop with the return value. -/
theorem C2_witness :
    c2s.emit.code c2s.instrPtr = .op .RET ∧
    c2s.stk (c2s.sp + 1) = .rawPtr .null ∧
    execStep c2s = .ret (c2s.stk c2s.sp)
      { c2s with instrPtr := c2s.instrPtr + 1, sp := 996, fp := 995 } ∧
    execCode 3 c2s = .ok (c2s.stk c2s.sp,
      { c2s with instrPtr := c2s.instrPtr + 1, sp := 996, fp := 995 }) :=
  ⟨by decide, by decide,
   ((C2_ret_restores_and_dispatches c2s 995 996 (by decide) (by decide)
      (by decide)).1 (by decide)).1,
   ((C2_ret_restores_and_dispatches c2s 995 996 (by decide) (by decide)
      (by decide)).1 (by decide)).2 2⟩

/-- Witness for C6 (amended): both halves applied at concrete inputs. -/
theorem C6_witness :
    lookupField (c6gs.heap.objHeap 0) (c6gs.heap.strHeap 0) = none ∧
    execStep c6gs = .err (.missingField (c6gs.heap.strHeap 0))
      { c6gs with instrPtr := c6gs.instrPtr + 1, sp := c6gs.sp + 2 } ∧
    isValidIdent (c6s.heap.strHeap 0) = true ∧
    execStep c6s = .next { c6s with
      instrPtr := c6s.instrPtr + 1, sp := c6s.sp + 3,
      heap := { c6s.heap with
        objHeap := Function.update c6s.heap.objHeap 0
          (setFieldList (c6s.heap.objHeap 0) (c6s.heap.strHeap 0)
            (.int32 7)) } } :=
  ⟨by decide,
   C6_amended_field_errors.1 c6gs 0 0 (by decide) (by decide) (by decide)
     (by decide),
   by decide,
   (C6_amended_field_errors.2.1 c6s 0 0 (.int32 7) (by decide) (by decide)
     (by decide) (by decide) (by decide)).1⟩

/-- The effect of funCall on an arbitrary state whose callee function
object is well formed: with a matching argument count it saves the
caller context, builds the callee frame and jumps to the (compiled if
needed) entry version; with a mismatched count it throws the
argument-count RunError carrying the recovered source position. -/
theorem funCall_spec (callInstr funRef numArgs retVid : Nat) (s : VMState)
    (entryBB entryVid : Nat) (numLocals numParams : Int) (srcPos : Value)
    (hEntry : lookupField (s.heap.objHeap funRef) (strLit "entry") =
      some (.objV entryBB))
    (hVer : s.reg.versionOf entryBB = some entryVid)
    (hVerFun : (s.reg.vers entryVid).funRef = funRef)
    (hNL : lookupField (s.heap.objHeap funRef) (strLit "num_locals") =
      some (.int32 numLocals))
    (hNP : lookupField (s.heap.objHeap funRef) (strLit "num_params") =
      some (.int32 numParams))
    (hLoc : numParams ≤ numLocals) :
    (∀ entryAddr,
      (s.reg.vers entryVid).startPtr = some entryAddr →
      getSrcPos s.heap s.reg callInstr = .ok srcPos →
      (numArgs : Int) = numParams →
      funCall callInstr funRef numArgs retVid s = .ok { s with
        stk := Function.update (Function.update (Function.update s.stk
          (s.sp - (numLocals - numArgs) - 1)
          (.rawPtr (.stackAddr (s.sp + numArgs))))
          (s.sp - (numLocals - numArgs) - 2) (.rawPtr (.stackAddr s.fp)))
          (s.sp - (numLocals - numArgs) - 3) (.rawPtr (.verAddr retVid))
        sp := s.sp - (numLocals - numArgs) - 3
        fp := s.sp + numArgs - 1
        instrPtr := entryAddr }) ∧
    (∀ entryAddr,
      (s.reg.vers entryVid).startPtr = some entryAddr →
      getSrcPos s.heap s.reg callInstr = .ok srcPos →
      (numArgs : Int) ≠ numParams →
      funCall callInstr funRef numArgs retVid s =
        .err (.argCount srcPos numArgs numParams) s) ∧
    (∀ r2 e2 a2,
      (s.reg.vers entryVid).startPtr = none →
      compile s.heap entryVid s.reg s.emit = .ok (r2, e2) →
      (r2.vers entryVid).startPtr = some a2 →
      getSrcPos s.heap r2 callInstr = .ok srcPos →
      (numArgs : Int) = numParams →
      funCall callInstr funRef numArgs retVid s = .ok { s with
        reg := r2
        emit := e2
        stk := Function.update (Function.update (Function.update s.stk
          (s.sp - (numLocals - numArgs) - 1)
          (.rawPtr (.stackAddr (s.sp + numArgs))))
          (s.sp - (numLocals - numArgs) - 2) (.rawPtr (.stackAddr s.fp)))
          (s.sp - (numLocals - numArgs) - 3) (.rawPtr (.verAddr retVid))
        sp := s.sp - (numLocals - numArgs) - 3
        fp := s.sp + numArgs - 1
        instrPtr := a2 }) := by
  have hnl : ¬ (numLocals < numParams) := not_lt.mpr hLoc
  refine ⟨fun entryAddr hStart hSrc hEq => ?_,
          fun entryAddr hStart hSrc hNe => ?_,
          fun r2 e2 a2 hNone hComp hStart2 hSrc2 hEq => ?_⟩
  · simp [funCall, eGetObj, eGetField, hEntry, getBlockVersion, hVer,
      hVerFun, hStart, eGetInt32, hNL, hNP, checkArgCount, hSrc,
      compileInState, pushVal, hEq, hnl]
    constructor
    · ring_nf
    · ring_nf
  · simp [funCall, eGetObj, eGetField, hEntry, getBlockVersion, hVer,
      hVerFun, hStart, eGetInt32, hNL, hNP, checkArgCount, hSrc,
      compileInState, pushVal, hNe]
  · simp [funCall, eGetObj, eGetField, hEntry, getBlockVersion, hVer,
      hVerFun, hNone, eGetInt32, hNL, hNP, checkArgCount, hSrc2,
      compileInState, hComp, pushVal, hEq, hnl, hStart2]
    constructor
    · ring_nf
    · ring_nf

/-- Reading back the three saved-context words pushed at the bottom of a
callee frame. -/
theorem update3_read_all (stk : Int → Value) (X : Int) (w1 w2 w3 : Value) :
    Function.update (Function.update (Function.update stk (X - 1) w1)
      (X - 2) w2) (X - 3) w3 (X - 3 + 2) = w1 ∧
    Function.update (Function.update (Function.update stk (X - 1) w1)
      (X - 2) w2) (X - 3) w3 (X - 3 + 1) = w2 ∧
    Function.update (Function.update (Function.update stk (X - 1) w1)
      (X - 2) w2) (X - 3) w3 (X - 3) = w3 := by
  refine ⟨?_, ?_, ?_⟩
  · rw [show X - 3 + 2 = X - 1 by ring, Function.update_noteq (by omega),
      Function.update_noteq (by omega), Function.update_same]
  · rw [show X - 3 + 1 = X - 2 by ring, Function.update_noteq (by omega),
      Function.update_same]
  · rw [Function.update_same]

/-- C1: for a CALL whose popped callee is an Object, with matching
argument count the interpreter compiles the entry version if needed,
pushes the three saved-context words (previous sp reconstructed as
sp + num_args over the post-pop sp, the previous fp, and the return
version pointer), sets fp to the first argument slot, moves sp down to
allocate num_locals - num_args additional local slots, and transfers
control to the entry version's start; with a mismatched count it fails
with the argument-count RunError carrying the originating instruction's
source position. -/
theorem C1_call_object_callee (s : VMState) (numArgs retVid funRef entryBB entryVid : Nat)
    (numLocals numParams : Int) (srcPos : Value)
    (hOp : s.emit.code s.instrPtr = .op .CALL)
    (hArgs : s.emit.code (s.instrPtr + 1) = .u16 numArgs)
    (hRet : s.emit.code (s.instrPtr + 2) = .ptrImm (codeHeapLimit + retVid))
    (hCallee : s.stk s.sp = .objV funRef)
    (hNoUnder : (numArgs : Int) ≤ stackSize s - 1)
    (hEntry : lookupField (s.heap.objHeap funRef) (strLit "entry") =
      some (.objV entryBB))
    (hVer : s.reg.versionOf entryBB = some entryVid)
    (hVerFun : (s.reg.vers entryVid).funRef = funRef)
    (hNL : lookupField (s.heap.objHeap funRef) (strLit "num_locals") =
      some (.int32 numLocals))
    (hNP : lookupField (s.heap.objHeap funRef) (strLit "num_params") =
      some (.int32 numParams))
    (hLoc : numParams ≤ numLocals)
    (hSrc : getSrcPos s.heap s.reg s.instrPtr = .ok srcPos) :
    (∀ entryAddr, (s.reg.vers entryVid).startPtr = some entryAddr →
      (numArgs : Int) = numParams →
      ∃ s1, execStep s = .next s1 ∧
        s1.instrPtr = entryAddr ∧
        s1.fp = s.sp + numArgs ∧
        s1.sp = s.sp + 1 + numArgs - numLocals - 3 ∧
        s1.stk (s1.sp + 2) = .rawPtr (.stackAddr (s.sp + 1 + numArgs)) ∧
        s1.stk (s1.sp + 1) = .rawPtr (.stackAddr s.fp) ∧
        s1.stk s1.sp = .rawPtr (.verAddr retVid) ∧
        s1.reg = s.reg ∧ s1.emit = s.emit ∧ s1.heap = s.heap) ∧
    ((numArgs : Int) ≠ numParams →
      ∀ entryAddr, (s.reg.vers entryVid).startPtr = some entryAddr →
      execStep s = .err (.argCount srcPos numArgs numParams)
        { s with instrPtr := s.instrPtr + 3, sp := s.sp + 1 }) ∧
    (∀ r2 e2 a2, (s.reg.vers entryVid).startPtr = none →
      compile s.heap entryVid s.reg s.emit = .ok (r2, e2) →
      (r2.vers entryVid).startPtr = some a2 →
      getSrcPos s.heap r2 s.instrPtr = .ok srcPos →
      (numArgs : Int) = numParams →
      ∃ s1, execStep s = .next s1 ∧
        s1.instrPtr = a2 ∧ s1.reg = r2 ∧ s1.emit = e2 ∧
        s1.fp = s.sp + numArgs ∧
        s1.sp = s.sp + 1 + numArgs - numLocals - 3) := by
  have hp : ¬ (codeHeapLimit + retVid < codeHeapLimit) := by omega
  have hcond :
      ¬ (stackSize { s with instrPtr := s.instrPtr + 3, sp := s.sp + 1 } <
          (numArgs : Int)) := by
    simp only [stackSize] at hNoUnder ⊢
    omega
  have hCall : ∀ (res : Res VMState), funCall s.instrPtr funRef numArgs retVid
      { s with instrPtr := s.instrPtr + 3, sp := s.sp + 1 } = res →
      execStep s = res.toStep := by
    intro res hres
    simp only [execStep, hOp, execInstr, hArgs, hRet, popVal, hCallee,
      if_neg hp, if_neg hcond, Nat.add_sub_cancel_left]
    rw [hres]
  have hCallOk : ∀ t, funCall s.instrPtr funRef numArgs retVid
      { s with instrPtr := s.instrPtr + 3, sp := s.sp + 1 } = .ok t →
      execStep s = .next t := fun t ht => hCall _ ht
  have hCallErr : ∀ er t, funCall s.instrPtr funRef numArgs retVid
      { s with instrPtr := s.instrPtr + 3, sp := s.sp + 1 } = .err er t →
      execStep s = .err er t := fun er t ht => hCall _ ht
  obtain ⟨hspec1, hspec2, hspec3⟩ := funCall_spec s.instrPtr funRef numArgs
    retVid { s with instrPtr := s.instrPtr + 3, sp := s.sp + 1 }
    entryBB entryVid numLocals numParams srcPos hEntry hVer hVerFun hNL hNP
    hLoc
  refine ⟨fun entryAddr hStart hEq => ?_, fun hNe entryAddr hStart => ?_,
          fun r2 e2 a2 hNone hComp hStart2 hSrc2 hEq => ?_⟩
  · refine ⟨_, hCallOk _ (hspec1 entryAddr hStart hSrc hEq), ?_, ?_, ?_, ?_,
      ?_, ?_, rfl, rfl, rfl⟩
    · rfl
    · show s.sp + 1 + (numArgs : Int) - 1 = s.sp + numArgs
      omega
    · show s.sp + 1 - (numLocals - (numArgs : Int)) - 3 =
        s.sp + 1 + numArgs - numLocals - 3
      omega
    · exact (update3_read_all s.stk
        (s.sp + 1 - (numLocals - (numArgs : Int))) _ _ _).1
    · exact (update3_read_all s.stk
        (s.sp + 1 - (numLocals - (numArgs : Int))) _ _ _).2.1
    · exact (update3_read_all s.stk
        (s.sp + 1 - (numLocals - (numArgs : Int))) _ _ _).2.2
  · exact hCallErr _ _ (hspec2 entryAddr hStart hSrc hNe)
  · refine ⟨_, hCallOk _ (hspec3 r2 e2 a2 hNone hComp hStart2 hSrc2 hEq),
      rfl, rfl, rfl, ?_, ?_⟩
    · show s.sp + 1 + (numArgs : Int) - 1 = s.sp + numArgs
      omega
    · show s.sp + 1 - (numLocals - (numArgs : Int)) - 3 =
        s.sp + 1 + numArgs - numLocals - 3
      omega


/-- The concrete CALL witness state: function object 0 with entry block
object 1 (version 0 compiled at address 3), one parameter and two
locals; the stack holds the argument 42 and the callee on top. -/
def c1s : VMState :=
  { heap := { emptyHeap with
      objHeap := (fun r =>
        if r = 0 then
          [(strLit "entry", .objV 1), (strLit "num_params", .int32 1),
           (strLit "num_locals", .int32 2)]
        else [])
      objCount := 2 },
    emit := { code := mkCode [.op .CALL, .u16 1, .ptrImm (verPtrOf 1),
                .op .RET],
              codeAlloc := 4 },
    reg := { initReg with
      vers := (fun v =>
        if v = 0 then
          { funRef := 0, blockRef := 1, startPtr := some 3, endPtr := some 4 }
        else { funRef := 0, blockRef := 0 })
      versCount := 1
      versionOf := (fun b => if b = 1 then some 0 else none) },
    stk := mkStk 1000 [.objV 0, .int32 42],
    sp := 1000, fp := 1002, instrPtr := 0,
    charStrings := fun _ => .boolV false }

/-- Witness for C1: the CALL on the concrete image builds the callee
frame and jumps to the compiled entry version. -/
theorem C1_witness :
    c1s.stk c1s.sp = .objV 0 ∧
    (c1s.reg.vers 0).startPtr = some 3 ∧
    (∃ s1, execStep c1s = .next s1 ∧
      s1.instrPtr = 3 ∧
      s1.fp = c1s.sp + (1 : Nat) ∧
      s1.sp = c1s.sp + 1 + (1 : Nat) - 2 - 3 ∧
      s1.stk (s1.sp + 2) = .rawPtr (.stackAddr (c1s.sp + 1 + (1 : Nat))) ∧
      s1.stk (s1.sp + 1) = .rawPtr (.stackAddr c1s.fp) ∧
      s1.stk s1.sp = .rawPtr (.verAddr 1) ∧
      s1.reg = c1s.reg ∧ s1.emit = c1s.emit ∧ s1.heap = c1s.heap) :=
  ⟨by decide, by decide,
   (C1_call_object_callee c1s 1 1 0 1 0 2 1 .undef (by decide) (by decide)
      (by decide) (by decide) (by decide) (by decide) (by decide)
      (by decide) (by decide) (by decide) (by decide) (by rfl)).1
     3 (by decide) (by decide)⟩


/-- C5 (amended): for a completed CALL-RET pair at the same nesting depth
(the RET executes with the three saved-context words that the funCall of
that CALL pushed), the stack size after control returns to the caller is
the stack size immediately before the CALL minus num_args: the callee
and the num_args arguments are consumed and one return value is pushed.
The sizes are equal only when num_args is zero. -/
theorem C5_amended_call_ret_stack_balance (s t : VMState)
    (numArgs retVid funRef ra : Nat) (f : Int)
    (hOp : s.emit.code s.instrPtr = .op .CALL)
    (hArgs : s.emit.code (s.instrPtr + 1) = .u16 numArgs)
    (hCallee : s.stk s.sp = .objV funRef)
    (htOp : t.emit.code t.instrPtr = .op .RET)
    (htSp : t.stk (t.sp + 3) = .rawPtr (.stackAddr (s.sp + 1 + numArgs)))
    (htFp : t.stk (t.sp + 2) = .rawPtr (.stackAddr f))
    (htVer : t.stk (t.sp + 1) = .rawPtr (.verAddr retVid))
    (hStart : (t.reg.vers retVid).startPtr = some ra) :
    ∃ t1, execStep t = .next t1 ∧ t1.instrPtr = ra ∧
      stackSize t1 = stackSize s - numArgs ∧
      (0 < numArgs → stackSize t1 ≠ stackSize s) := by
  have htFp2 : t.stk (t.sp + 1 + 1) = Value.rawPtr (.stackAddr f) := by
    rw [show t.sp + 1 + 1 = t.sp + 2 by ring]
    exact htFp
  have htSp2 : t.stk (t.sp + 1 + 1 + 1) =
      Value.rawPtr (.stackAddr (s.sp + 1 + numArgs)) := by
    rw [show t.sp + 1 + 1 + 1 = t.sp + 3 by ring]
    exact htSp
  refine ⟨_, by
    simp only [execStep, htOp, popVal, htVer, htFp2, htSp2, pushVal, hStart,
      compileInState]
    simp only [hStart, Option.some_ne_none, if_false, ite_false,
      reduceCtorEq, if_neg]
    rfl, ?_, ?_, ?_⟩
  · rfl
  · simp only [stackSize]
    omega
  · intro hpos
    simp only [stackSize]
    omega

/-- The concrete CALL-RET counterexample image: function object 0 (one
parameter, one local) whose entry block (version 0, compiled at address
3) loads the argument and returns; the call continuation is version 1 at
address 6. -/
def c5s : VMState :=
  { heap := { emptyHeap with
      objHeap := (fun r =>
        if r = 0 then
          [(strLit "entry", .objV 1), (strLit "num_params", .int32 1),
           (strLit "num_locals", .int32 1)]
        else [])
      objCount := 3 },
    emit := { code := mkCode [.op .CALL, .u16 1, .ptrImm (verPtrOf 1),
                .op .GET_LOCAL, .u16 0, .op .RET, .op .POP],
              codeAlloc := 7 },
    reg := { initReg with
      vers := (fun v =>
        if v = 0 then
          { funRef := 0, blockRef := 1, startPtr := some 3, endPtr := some 6 }
        else if v = 1 then
          { funRef := 0, blockRef := 2, startPtr := some 6, endPtr := some 7 }
        else { funRef := 0, blockRef := 0 })
      versCount := 2
      versionOf := (fun b =>
        if b = 1 then some 0 else if b = 2 then some 1 else none) },
    stk := mkStk 1000 [.objV 0, .int32 42],
    sp := 1000, fp := 1002, instrPtr := 0,
    charStrings := fun _ => .boolV false }

/-- The state after the CALL dispatch. -/
def c5s1 : VMState := stepExtract c5s

/-- The state after the callee's get_local. -/
def c5s2 : VMState := stepExtract c5s1

/-- The state after the callee's RET, back at the call continuation. -/
def c5s3 : VMState := stepExtract c5s2

/-- Counterexample for C5 as stated: in the concrete completed CALL-RET
pair (num_args = 1), control returns to the caller's continuation with a
stack one slot smaller than immediately before the CALL. -/
theorem C5_counterexample :
    execStep c5s = .next c5s1 ∧
    execStep c5s1 = .next c5s2 ∧
    execStep c5s2 = .next c5s3 ∧
    c5s3.instrPtr = 6 ∧
    stackSize c5s3 = stackSize c5s - 1 ∧
    stackSize c5s3 ≠ stackSize c5s := by
  refine ⟨by rfl, by rfl, by rfl, by decide, by decide, by decide⟩

/-- Witness for C5 (amended): the amended balance applied to the
concrete pair. -/
theorem C5_witness :
    c5s.emit.code c5s.instrPtr = .op .CALL ∧
    c5s2.stk (c5s2.sp + 3) =
      .rawPtr (.stackAddr (c5s.sp + 1 + (1 : Nat))) ∧
    (∃ t1, execStep c5s2 = .next t1 ∧ t1.instrPtr = 6 ∧
      stackSize t1 = stackSize c5s - (1 : Nat) ∧
      (0 < (1 : Nat) → stackSize t1 ≠ stackSize c5s)) :=
  ⟨by decide, by decide,
   C5_amended_call_ret_stack_balance c5s c5s2 1 1 0 6 1002 (by decide)
     (by decide) (by decide) (by decide) (by decide) (by decide)
     (by decide) (by decide)⟩

/-- getBlockVersion only grows the version store: an existing version is
returned unchanged, and a new version is created at a fresh identity. -/
theorem getBlockVersion_pres (funRef blockRef : Nat) (r : Registry)
    (vid2 : Nat) (r2 : Registry)
    (h : getBlockVersion funRef blockRef r = .ok (vid2, r2)) :
    r.versCount ≤ r2.versCount ∧
      ∀ i, i < r.versCount → r2.vers i = r.vers i := by
  unfold getBlockVersion at h
  split at h
  · split at h
    · cases h
      exact ⟨le_refl _, fun i _ => rfl⟩
    · cases h
  · cases h
    refine ⟨Nat.le_succ _, fun i hi => ?_⟩
    simp only [Function.update_noteq (by omega : i ≠ r.versCount)]

set_option maxHeartbeats 4000000 in
/-- The per-instruction encoding pass only grows the version store:
the version count is monotone and every existing version record is
unchanged. -/
theorem encodeInstr_pres (h : Heap) (vid site instr : Nat) (r : Registry)
    (ws : List CodeWord) (r2 : Registry)
    (henc : encodeInstr h vid site instr r = .ok (ws, r2)) :
    (r.versCount ≤ r2.versCount ∧
      ∀ i, i < r.versCount → r2.vers i = r.vers i) ∧ ws ≠ [] := by
  unfold encodeInstr at henc
  cases hop : eGetStr h instr (strLit "op") r with
  | err er r0 =>
      rw [hop] at henc
      cases henc
  | fatal =>
      rw [hop] at henc
      cases henc
  | ok opRef =>
  rw [hop] at henc
  simp only [ERes.ok_bind_e] at henc
  by_cases hc0 : h.strHeap opRef = strLit "push"
  case pos =>
    rw [if_pos hc0] at henc
    cases hfx : eGetField h instr (strLit "val") r with
    | ok v =>
        rw [hfx] at henc
        simp only [ERes.ok_bind_e] at henc
        injection henc with h1
        injection h1 with hws hreg
        subst hreg
        exact ⟨⟨le_refl _, fun i _ => rfl⟩, by rw [← hws]; simp⟩
    | err er2 r0 =>
        rw [hfx] at henc
        simp only [ERes.err_bind_e] at henc
        cases henc
    | fatal =>
        rw [hfx] at henc
        simp only [ERes.fatal_bind_e] at henc
        cases henc
  case neg =>
  rw [if_neg hc0] at henc
  by_cases hc1 : h.strHeap opRef = strLit "pop"
  case pos =>
    rw [if_pos hc1] at henc
    injection henc with h1
    injection h1 with hws hreg
    subst hreg
    exact ⟨⟨le_refl _, fun i _ => rfl⟩, by rw [← hws]; simp⟩
  case neg =>
  rw [if_neg hc1] at henc
  by_cases hc2 : h.strHeap opRef = strLit "dup"
  case pos =>
    rw [if_pos hc2] at henc
    cases hfx : eGetInt32 h instr (strLit "idx") r with
    | ok v =>
        rw [hfx] at henc
        simp only [ERes.ok_bind_e] at henc
        injection henc with h1
        injection h1 with hws hreg
        subst hreg
        exact ⟨⟨le_refl _, fun i _ => rfl⟩, by rw [← hws]; simp⟩
    | err er2 r0 =>
        rw [hfx] at henc
        simp only [ERes.err_bind_e] at henc
        cases henc
    | fatal =>
        rw [hfx] at henc
        simp only [ERes.fatal_bind_e] at henc
        cases henc
  case neg =>
  rw [if_neg hc2] at henc
  by_cases hc3 : h.strHeap opRef = strLit "swap"
  case pos =>
    rw [if_pos hc3] at henc
    injection henc with h1
    injection h1 with hws hreg
    subst hreg
    exact ⟨⟨le_refl _, fun i _ => rfl⟩, by rw [← hws]; simp⟩
  case neg =>
  rw [if_neg hc3] at henc
  by_cases hc4 : h.strHeap opRef = strLit "get_local"
  case pos =>
    rw [if_pos hc4] at henc
    cases hfx : eGetInt32 h instr (strLit "idx") r with
    | ok v =>
        rw [hfx] at henc
        simp only [ERes.ok_bind_e] at henc
        injection henc with h1
        injection h1 with hws hreg
        subst hreg
        exact ⟨⟨le_refl _, fun i _ => rfl⟩, by rw [← hws]; simp⟩
    | err er2 r0 =>
        rw [hfx] at henc
        simp only [ERes.err_bind_e] at henc
        cases henc
    | fatal =>
        rw [hfx] at henc
        simp only [ERes.fatal_bind_e] at henc
        cases henc
  case neg =>
  rw [if_neg hc4] at henc
  by_cases hc5 : h.strHeap opRef = strLit "set_local"
  case pos =>
    rw [if_pos hc5] at henc
    cases hfx : eGetInt32 h instr (strLit "idx") r with
    | ok v =>
        rw [hfx] at henc
        simp only [ERes.ok_bind_e] at henc
        injection henc with h1
        injection h1 with hws hreg
        subst hreg
        exact ⟨⟨le_refl _, fun i _ => rfl⟩, by rw [← hws]; simp⟩
    | err er2 r0 =>
        rw [hfx] at henc
        simp only [ERes.err_bind_e] at henc
        cases henc
    | fatal =>
        rw [hfx] at henc
        simp only [ERes.fatal_bind_e] at henc
        cases henc
  case neg =>
  rw [if_neg hc5] at henc
  by_cases hc6 : h.strHeap opRef = strLit "add_i32"
  case pos =>
    rw [if_pos hc6] at henc
    injection henc with h1
    injection h1 with hws hreg
    subst hreg
    exact ⟨⟨le_refl _, fun i _ => rfl⟩, by rw [← hws]; simp⟩
  case neg =>
  rw [if_neg hc6] at henc
  by_cases hc7 : h.strHeap opRef = strLit "sub_i32"
  case pos =>
    rw [if_pos hc7] at henc
    injection henc with h1
    injection h1 with hws hreg
    subst hreg
    exact ⟨⟨le_refl _, fun i _ => rfl⟩, by rw [← hws]; simp⟩
  case neg =>
  rw [if_neg hc7] at henc
  by_cases hc8 : h.strHeap opRef = strLit "mul_i32"
  case pos =>
    rw [if_pos hc8] at henc
    injection henc with h1
    injection h1 with hws hreg
    subst hreg
    exact ⟨⟨le_refl _, fun i _ => rfl⟩, by rw [← hws]; simp⟩
  case neg =>
  rw [if_neg hc8] at henc
  by_cases hc9 : h.strHeap opRef = strLit "lt_i32"
  case pos =>
    rw [if_pos hc9] at henc
    injection henc with h1
    injection h1 with hws hreg
    subst hreg
    exact ⟨⟨le_refl _, fun i _ => rfl⟩, by rw [← hws]; simp⟩
  case neg =>
  rw [if_neg hc9] at henc
  by_cases hc10 : h.strHeap opRef = strLit "le_i32"
  case pos =>
    rw [if_pos hc10] at henc
    injection henc with h1
    injection h1 with hws hreg
    subst hreg
    exact ⟨⟨le_refl _, fun i _ => rfl⟩, by rw [← hws]; simp⟩
  case neg =>
  rw [if_neg hc10] at henc
  by_cases hc11 : h.strHeap opRef = strLit "gt_i32"
  case pos =>
    rw [if_pos hc11] at henc
    injection henc with h1
    injection h1 with hws hreg
    subst hreg
    exact ⟨⟨le_refl _, fun i _ => rfl⟩, by rw [← hws]; simp⟩
  case neg =>
  rw [if_neg hc11] at henc
  by_cases hc12 : h.strHeap opRef = strLit "ge_i32"
  case pos =>
    rw [if_pos hc12] at henc
    injection henc with h1
    injection h1 with hws hreg
    subst hreg
    exact ⟨⟨le_refl _, fun i _ => rfl⟩, by rw [← hws]; simp⟩
  case neg =>
  rw [if_neg hc12] at henc
  by_cases hc13 : h.strHeap opRef = strLit "eq_i32"
  case pos =>
    rw [if_pos hc13] at henc
    injection henc with h1
    injection h1 with hws hreg
    subst hreg
    exact ⟨⟨le_refl _, fun i _ => rfl⟩, by rw [← hws]; simp⟩
  case neg =>
  rw [if_neg hc13] at henc
  by_cases hc14 : h.strHeap opRef = strLit "add_f32"
  case pos =>
    rw [if_pos hc14] at henc
    injection henc with h1
    injection h1 with hws hreg
    subst hreg
    exact ⟨⟨le_refl _, fun i _ => rfl⟩, by rw [← hws]; simp⟩
  case neg =>
  rw [if_neg hc14] at henc
  by_cases hc15 : h.strHeap opRef = strLit "sub_f32"
  case pos =>
    rw [if_pos hc15] at henc
    injection henc with h1
    injection h1 with hws hreg
    subst hreg
    exact ⟨⟨le_refl _, fun i _ => rfl⟩, by rw [← hws]; simp⟩
  case neg =>
  rw [if_neg hc15] at henc
  by_cases hc16 : h.strHeap opRef = strLit "mul_f32"
  case pos =>
    rw [if_pos hc16] at henc
    injection henc with h1
    injection h1 with hws hreg
    subst hreg
    exact ⟨⟨le_refl _, fun i _ => rfl⟩, by rw [← hws]; simp⟩
  case neg =>
  rw [if_neg hc16] at henc
  by_cases hc17 : h.strHeap opRef = strLit "div_f32"
  case pos =>
    rw [if_pos hc17] at henc
    injection henc with h1
    injection h1 with hws hreg
    subst hreg
    exact ⟨⟨le_refl _, fun i _ => rfl⟩, by rw [← hws]; simp⟩
  case neg =>
  rw [if_neg hc17] at henc
  by_cases hc18 : h.strHeap opRef = strLit "lt_f32"
  case pos =>
    rw [if_pos hc18] at henc
    injection henc with h1
    injection h1 with hws hreg
    subst hreg
    exact ⟨⟨le_refl _, fun i _ => rfl⟩, by rw [← hws]; simp⟩
  case neg =>
  rw [if_neg hc18] at henc
  by_cases hc19 : h.strHeap opRef = strLit "le_f32"
  case pos =>
    rw [if_pos hc19] at henc
    injection henc with h1
    injection h1 with hws hreg
    subst hreg
    exact ⟨⟨le_refl _, fun i _ => rfl⟩, by rw [← hws]; simp⟩
  case neg =>
  rw [if_neg hc19] at henc
  by_cases hc20 : h.strHeap opRef = strLit "gt_f32"
  case pos =>
    rw [if_pos hc20] at henc
    injection henc with h1
    injection h1 with hws hreg
    subst hreg
    exact ⟨⟨le_refl _, fun i _ => rfl⟩, by rw [← hws]; simp⟩
  case neg =>
  rw [if_neg hc20] at henc
  by_cases hc21 : h.strHeap opRef = strLit "ge_f32"
  case pos =>
    rw [if_pos hc21] at henc
    injection henc with h1
    injection h1 with hws hreg
    subst hreg
    exact ⟨⟨le_refl _, fun i _ => rfl⟩, by rw [← hws]; simp⟩
  case neg =>
  rw [if_neg hc21] at henc
  by_cases hc22 : h.strHeap opRef = strLit "eq_f32"
  case pos =>
    rw [if_pos hc22] at henc
    injection henc with h1
    injection h1 with hws hreg
    subst hreg
    exact ⟨⟨le_refl _, fun i _ => rfl⟩, by rw [← hws]; simp⟩
  case neg =>
  rw [if_neg hc22] at henc
  by_cases hc23 : h.strHeap opRef = strLit "sin_f32"
  case pos =>
    rw [if_pos hc23] at henc
    injection henc with h1
    injection h1 with hws hreg
    subst hreg
    exact ⟨⟨le_refl _, fun i _ => rfl⟩, by rw [← hws]; simp⟩
  case neg =>
  rw [if_neg hc23] at henc
  by_cases hc24 : h.strHeap opRef = strLit "cos_f32"
  case pos =>
    rw [if_pos hc24] at henc
    injection henc with h1
    injection h1 with hws hreg
    subst hreg
    exact ⟨⟨le_refl _, fun i _ => rfl⟩, by rw [← hws]; simp⟩
  case neg =>
  rw [if_neg hc24] at henc
  by_cases hc25 : h.strHeap opRef = strLit "sqrt_f32"
  case pos =>
    rw [if_pos hc25] at henc
    injection henc with h1
    injection h1 with hws hreg
    subst hreg
    exact ⟨⟨le_refl _, fun i _ => rfl⟩, by rw [← hws]; simp⟩
  case neg =>
  rw [if_neg hc25] at henc
  by_cases hc26 : h.strHeap opRef = strLit "i32_to_f32"
  case pos =>
    rw [if_pos hc26] at henc
    injection henc with h1
    injection h1 with hws hreg
    subst hreg
    exact ⟨⟨le_refl _, fun i _ => rfl⟩, by rw [← hws]; simp⟩
  case neg =>
  rw [if_neg hc26] at henc
  by_cases hc27 : h.strHeap opRef = strLit "f32_to_i32"
  case pos =>
    rw [if_pos hc27] at henc
    injection henc with h1
    injection h1 with hws hreg
    subst hreg
    exact ⟨⟨le_refl _, fun i _ => rfl⟩, by rw [← hws]; simp⟩
  case neg =>
  rw [if_neg hc27] at henc
  by_cases hc28 : h.strHeap opRef = strLit "f32_to_str"
  case pos =>
    rw [if_pos hc28] at henc
    injection henc with h1
    injection h1 with hws hreg
    subst hreg
    exact ⟨⟨le_refl _, fun i _ => rfl⟩, by rw [← hws]; simp⟩
  case neg =>
  rw [if_neg hc28] at henc
  by_cases hc29 : h.strHeap opRef = strLit "str_to_f32"
  case pos =>
    rw [if_pos hc29] at henc
    injection henc with h1
    injection h1 with hws hreg
    subst hreg
    exact ⟨⟨le_refl _, fun i _ => rfl⟩, by rw [← hws]; simp⟩
  case neg =>
  rw [if_neg hc29] at henc
  by_cases hc30 : h.strHeap opRef = strLit "eq_bool"
  case pos =>
    rw [if_pos hc30] at henc
    injection henc with h1
    injection h1 with hws hreg
    subst hreg
    exact ⟨⟨le_refl _, fun i _ => rfl⟩, by rw [← hws]; simp⟩
  case neg =>
  rw [if_neg hc30] at henc
  by_cases hc31 : h.strHeap opRef = strLit "has_tag"
  case pos =>
    rw [if_pos hc31] at henc
    cases hfx : eGetStr h instr (strLit "tag") r with
    | ok v =>
        rw [hfx] at henc
        simp only [ERes.ok_bind_e] at henc
        cases ht : strToTag (h.strHeap v) with
        | some t =>
            rw [ht] at henc
            injection henc with h1
            injection h1 with hws hreg
            subst hreg
            exact ⟨⟨le_refl _, fun i _ => rfl⟩, by rw [← hws]; simp⟩
        | none =>
            rw [ht] at henc
            cases henc
    | err er2 r0 =>
        rw [hfx] at henc
        simp only [ERes.err_bind_e] at henc
        cases henc
    | fatal =>
        rw [hfx] at henc
        simp only [ERes.fatal_bind_e] at henc
        cases henc
  case neg =>
  rw [if_neg hc31] at henc
  by_cases hc32 : h.strHeap opRef = strLit "str_len"
  case pos =>
    rw [if_pos hc32] at henc
    injection henc with h1
    injection h1 with hws hreg
    subst hreg
    exact ⟨⟨le_refl _, fun i _ => rfl⟩, by rw [← hws]; simp⟩
  case neg =>
  rw [if_neg hc32] at henc
  by_cases hc33 : h.strHeap opRef = strLit "get_char"
  case pos =>
    rw [if_pos hc33] at henc
    injection henc with h1
    injection h1 with hws hreg
    subst hreg
    exact ⟨⟨le_refl _, fun i _ => rfl⟩, by rw [← hws]; simp⟩
  case neg =>
  rw [if_neg hc33] at henc
  by_cases hc34 : h.strHeap opRef = strLit "get_char_code"
  case pos =>
    rw [if_pos hc34] at henc
    injection henc with h1
    injection h1 with hws hreg
    subst hreg
    exact ⟨⟨le_refl _, fun i _ => rfl⟩, by rw [← hws]; simp⟩
  case neg =>
  rw [if_neg hc34] at henc
  by_cases hc35 : h.strHeap opRef = strLit "str_cat"
  case pos =>
    rw [if_pos hc35] at henc
    injection henc with h1
    injection h1 with hws hreg
    subst hreg
    exact ⟨⟨le_refl _, fun i _ => rfl⟩, by rw [← hws]; simp⟩
  case neg =>
  rw [if_neg hc35] at henc
  by_cases hc36 : h.strHeap opRef = strLit "eq_str"
  case pos =>
    rw [if_pos hc36] at henc
    injection henc with h1
    injection h1 with hws hreg
    subst hreg
    exact ⟨⟨le_refl _, fun i _ => rfl⟩, by rw [← hws]; simp⟩
  case neg =>
  rw [if_neg hc36] at henc
  by_cases hc37 : h.strHeap opRef = strLit "new_object"
  case pos =>
    rw [if_pos hc37] at henc
    injection henc with h1
    injection h1 with hws hreg
    subst hreg
    exact ⟨⟨le_refl _, fun i _ => rfl⟩, by rw [← hws]; simp⟩
  case neg =>
  rw [if_neg hc37] at henc
  by_cases hc38 : h.strHeap opRef = strLit "has_field"
  case pos =>
    rw [if_pos hc38] at henc
    injection henc with h1
    injection h1 with hws hreg
    subst hreg
    exact ⟨⟨le_refl _, fun i _ => rfl⟩, by rw [← hws]; simp⟩
  case neg =>
  rw [if_neg hc38] at henc
  by_cases hc39 : h.strHeap opRef = strLit "set_field"
  case pos =>
    rw [if_pos hc39] at henc
    injection henc with h1
    injection h1 with hws hreg
    subst hreg
    exact ⟨⟨le_refl _, fun i _ => rfl⟩, by rw [← hws]; simp⟩
  case neg =>
  rw [if_neg hc39] at henc
  by_cases hc40 : h.strHeap opRef = strLit "get_field"
  case pos =>
    rw [if_pos hc40] at henc
    injection henc with h1
    injection h1 with hws hreg
    subst hreg
    exact ⟨⟨le_refl _, fun i _ => rfl⟩, by rw [← hws]; simp⟩
  case neg =>
  rw [if_neg hc40] at henc
  by_cases hc41 : h.strHeap opRef = strLit "new_array"
  case pos =>
    rw [if_pos hc41] at henc
    injection henc with h1
    injection h1 with hws hreg
    subst hreg
    exact ⟨⟨le_refl _, fun i _ => rfl⟩, by rw [← hws]; simp⟩
  case neg =>
  rw [if_neg hc41] at henc
  by_cases hc42 : h.strHeap opRef = strLit "array_len"
  case pos =>
    rw [if_pos hc42] at henc
    injection henc with h1
    injection h1 with hws hreg
    subst hreg
    exact ⟨⟨le_refl _, fun i _ => rfl⟩, by rw [← hws]; simp⟩
  case neg =>
  rw [if_neg hc42] at henc
  by_cases hc43 : h.strHeap opRef = strLit "array_push"
  case pos =>
    rw [if_pos hc43] at henc
    injection henc with h1
    injection h1 with hws hreg
    subst hreg
    exact ⟨⟨le_refl _, fun i _ => rfl⟩, by rw [← hws]; simp⟩
  case neg =>
  rw [if_neg hc43] at henc
  by_cases hc44 : h.strHeap opRef = strLit "set_elem"
  case pos =>
    rw [if_pos hc44] at henc
    injection henc with h1
    injection h1 with hws hreg
    subst hreg
    exact ⟨⟨le_refl _, fun i _ => rfl⟩, by rw [← hws]; simp⟩
  case neg =>
  rw [if_neg hc44] at henc
  by_cases hc45 : h.strHeap opRef = strLit "get_elem"
  case pos =>
    rw [if_pos hc45] at henc
    injection henc with h1
    injection h1 with hws hreg
    subst hreg
    exact ⟨⟨le_refl _, fun i _ => rfl⟩, by rw [← hws]; simp⟩
  case neg =>
  rw [if_neg hc45] at henc
  by_cases hc46 : h.strHeap opRef = strLit "eq_obj"
  case pos =>
    rw [if_pos hc46] at henc
    injection henc with h1
    injection h1 with hws hreg
    subst hreg
    exact ⟨⟨le_refl _, fun i _ => rfl⟩, by rw [← hws]; simp⟩
  case neg =>
  rw [if_neg hc46] at henc
  by_cases hc47 : h.strHeap opRef = strLit "jump"
  case pos =>
    rw [if_pos hc47] at henc
    cases hfx : eGetObj h instr (strLit "to") r with
    | ok dstBB =>
        rw [hfx] at henc
        simp only [ERes.ok_bind_e] at henc
        cases hgb : getBlockVersion (r.vers vid).funRef dstBB r with
        | ok pr =>
            obtain ⟨dstVid, rb⟩ := pr
            rw [hgb] at henc
            simp only [ERes.ok_bind_e] at henc
            injection henc with h1
            injection h1 with hws hreg
            subst hreg
            exact ⟨getBlockVersion_pres _ _ _ _ _ hgb, by rw [← hws]; simp⟩
        | err er2 r0 =>
            rw [hgb] at henc
            simp only [ERes.err_bind_e] at henc
            cases henc
        | fatal =>
            rw [hgb] at henc
            simp only [ERes.fatal_bind_e] at henc
            cases henc
    | err er2 r0 =>
        rw [hfx] at henc
        simp only [ERes.err_bind_e] at henc
        cases henc
    | fatal =>
        rw [hfx] at henc
        simp only [ERes.fatal_bind_e] at henc
        cases henc
  case neg =>
  rw [if_neg hc47] at henc
  by_cases hc48 : h.strHeap opRef = strLit "if_true"
  case pos =>
    rw [if_pos hc48] at henc
    cases hf1 : eGetObj h instr (strLit "then") r with
    | err er2 r0 =>
        rw [hf1] at henc
        simp only [ERes.err_bind_e] at henc
        cases henc
    | fatal =>
        rw [hf1] at henc
        simp only [ERes.fatal_bind_e] at henc
        cases henc
    | ok thenBB =>
    rw [hf1] at henc
    simp only [ERes.ok_bind_e] at henc
    cases hf2 : eGetObj h instr (strLit "else") r with
    | err er2 r0 =>
        rw [hf2] at henc
        simp only [ERes.err_bind_e] at henc
        cases henc
    | fatal =>
        rw [hf2] at henc
        simp only [ERes.fatal_bind_e] at henc
        cases henc
    | ok elseBB =>
    rw [hf2] at henc
    simp only [ERes.ok_bind_e] at henc
    cases hg1 : getBlockVersion (r.vers vid).funRef thenBB r with
    | err er2 r0 =>
        rw [hg1] at henc
        simp only [ERes.err_bind_e] at henc
        cases henc
    | fatal =>
        rw [hg1] at henc
        simp only [ERes.fatal_bind_e] at henc
        cases henc
    | ok pr1 =>
    obtain ⟨thenVid, rb1⟩ := pr1
    rw [hg1] at henc
    simp only [ERes.ok_bind_e] at henc
    cases hg2 : getBlockVersion (rb1.vers vid).funRef elseBB rb1 with
    | err er2 r0 =>
        rw [hg2] at henc
        simp only [ERes.err_bind_e] at henc
        cases henc
    | fatal =>
        rw [hg2] at henc
        simp only [ERes.fatal_bind_e] at henc
        cases henc
    | ok pr2 =>
    obtain ⟨elseVid, rb2⟩ := pr2
    rw [hg2] at henc
    simp only [ERes.ok_bind_e] at henc
    injection henc with h1
    injection h1 with hws hreg
    subst hreg
    have p1 := getBlockVersion_pres _ _ _ _ _ hg1
    have p2 := getBlockVersion_pres _ _ _ _ _ hg2
    exact ⟨⟨le_trans p1.1 p2.1,
      fun i hi => (p2.2 i (lt_of_lt_of_le hi p1.1)).trans (p1.2 i hi)⟩,
      by rw [← hws]; simp⟩
  case neg =>
  rw [if_neg hc48] at henc
  by_cases hc49 : h.strHeap opRef = strLit "call"
  case pos =>
    rw [if_pos hc49] at henc
    cases hf1 : eGetInt32 h instr (strLit "num_args") { r with instrMap := Function.update r.instrMap site (some vid) } with
    | err er2 r0 =>
        rw [hf1] at henc
        simp only [ERes.err_bind_e] at henc
        cases henc
    | fatal =>
        rw [hf1] at henc
        simp only [ERes.fatal_bind_e] at henc
        cases henc
    | ok numArgs =>
    rw [hf1] at henc
    simp only [ERes.ok_bind_e] at henc
    cases hf2 : eGetObj h instr (strLit "ret_to") { r with instrMap := Function.update r.instrMap site (some vid) } with
    | err er2 r0 =>
        rw [hf2] at henc
        simp only [ERes.err_bind_e] at henc
        cases henc
    | fatal =>
        rw [hf2] at henc
        simp only [ERes.fatal_bind_e] at henc
        cases henc
    | ok retToBB =>
    rw [hf2] at henc
    simp only [ERes.ok_bind_e] at henc
    cases hg1 : getBlockVersion (Registry.vers { r with instrMap := Function.update r.instrMap site (some vid) } vid).funRef retToBB { r with instrMap := Function.update r.instrMap site (some vid) } with
    | err er2 r0 =>
        rw [hg1] at henc
        simp only [ERes.err_bind_e] at henc
        cases henc
    | fatal =>
        rw [hg1] at henc
        simp only [ERes.fatal_bind_e] at henc
        cases henc
    | ok pr1 =>
    obtain ⟨retVid, rb1⟩ := pr1
    rw [hg1] at henc
    simp only [ERes.ok_bind_e] at henc
    have p1 := getBlockVersion_pres _ _ _ _ _ hg1
    by_cases hht : hasFieldList (h.objHeap instr) (strLit "throw_to") = true
    case pos =>
      rw [if_pos hht] at henc
      cases hf3 : eGetObj h instr (strLit "throw_to") rb1 with
      | err er2 r0 =>
          rw [hf3] at henc
          simp only [ERes.err_bind_e] at henc
          cases henc
      | fatal =>
          rw [hf3] at henc
          simp only [ERes.fatal_bind_e] at henc
          cases henc
      | ok throwBB =>
      rw [hf3] at henc
      simp only [ERes.ok_bind_e] at henc
      cases hg2 : getBlockVersion (rb1.vers vid).funRef throwBB rb1 with
      | err er2 r0 =>
          rw [hg2] at henc
          simp only [ERes.err_bind_e] at henc
          cases henc
      | fatal =>
          rw [hg2] at henc
          simp only [ERes.fatal_bind_e] at henc
          cases henc
      | ok pr2 =>
      obtain ⟨throwVid, rb2⟩ := pr2
      rw [hg2] at henc
      simp only [ERes.ok_bind_e, ERes.pure_eq_e] at henc
      injection henc with h1
      injection h1 with hws hreg
      subst hreg
      have p2 := getBlockVersion_pres _ _ _ _ _ hg2
      exact ⟨⟨le_trans p1.1 p2.1,
        fun i hi => (p2.2 i (lt_of_lt_of_le hi p1.1)).trans (p1.2 i hi)⟩,
        by rw [← hws]; simp⟩
    case neg =>
      rw [if_neg hht] at henc
      simp only [ERes.ok_bind_e, ERes.pure_eq_e] at henc
      injection henc with h1
      injection h1 with hws hreg
      subst hreg
      exact ⟨p1, by rw [← hws]; simp⟩
  case neg =>
  rw [if_neg hc49] at henc
  by_cases hc50 : h.strHeap opRef = strLit "ret"
  case pos =>
    rw [if_pos hc50] at henc
    injection henc with h1
    injection h1 with hws hreg
    subst hreg
    exact ⟨⟨le_refl _, fun i _ => rfl⟩, by rw [← hws]; simp⟩
  case neg =>
  rw [if_neg hc50] at henc
  by_cases hc51 : h.strHeap opRef = strLit "throw"
  case pos =>
    rw [if_pos hc51] at henc
    injection henc with h1
    injection h1 with hws hreg
    subst hreg
    exact ⟨⟨le_refl _, fun i _ => rfl⟩, by rw [← hws]; simp⟩
  case neg =>
  rw [if_neg hc51] at henc
  by_cases hc52 : h.strHeap opRef = strLit "import"
  case pos =>
    rw [if_pos hc52] at henc
    injection henc with h1
    injection h1 with hws hreg
    subst hreg
    exact ⟨⟨le_refl _, fun i _ => rfl⟩, by rw [← hws]; simp⟩
  case neg =>
  rw [if_neg hc52] at henc
  by_cases hc53 : h.strHeap opRef = strLit "abort"
  case pos =>
    rw [if_pos hc53] at henc
    injection henc with h1
    injection h1 with hws hreg
    subst hreg
    exact ⟨⟨le_refl _, fun i _ => rfl⟩, by rw [← hws]; simp⟩
  case neg =>
  rw [if_neg hc53] at henc
  cases henc



/-- writeCode appends one word: the allocation pointer advances by one
and existing words are unchanged. -/
theorem writeCode_pres (w : CodeWord) (e e2 : EmitState)
    (h : writeCode w e = some e2) :
    e2.codeAlloc = e.codeAlloc + 1 ∧ e.codeAlloc < codeHeapLimit ∧
      ∀ b, b < e.codeAlloc → e2.code b = e.code b := by
  unfold writeCode at h
  split at h
  · cases h
    refine ⟨rfl, by assumption, fun b hb => ?_⟩
    simp only [Function.update_noteq (by omega : b ≠ e.codeAlloc)]
  · cases h

/-- emitWords only appends: the allocation pointer is monotone and
existing words are unchanged. -/
theorem emitWords_pres (ws : List CodeWord) (e e2 : EmitState)
    (h : emitWords ws e = some e2) :
    e.codeAlloc ≤ e2.codeAlloc ∧
      ∀ b, b < e.codeAlloc → e2.code b = e.code b := by
  induction ws generalizing e with
  | nil =>
      unfold emitWords at h
      cases h
      exact ⟨le_refl _, fun b _ => rfl⟩
  | cons w ws ih =>
      unfold emitWords at h
      cases hw : writeCode w e with
      | none => rw [hw] at h; cases h
      | some e1 =>
          rw [hw] at h
          obtain ⟨ha, _, hp⟩ := writeCode_pres w e e1 hw
          obtain ⟨ha2, hp2⟩ := ih e1 h
          refine ⟨by omega, fun b hb => ?_⟩
          rw [hp2 b (by omega), hp b hb]

/-- The compile loop only grows the version store and the code heap. -/
theorem compileLoop_pres (h : Heap) (vid : Nat) (instrs : List Value)
    (r : Registry) (e : EmitState) (r2 : Registry) (e2 : EmitState)
    (hcl : compileLoop h vid instrs r e = .ok (r2, e2)) :
    (r.versCount ≤ r2.versCount ∧
      ∀ i, i < r.versCount → r2.vers i = r.vers i) ∧
    (e.codeAlloc ≤ e2.codeAlloc ∧
      ∀ b, b < e.codeAlloc → e2.code b = e.code b) := by
  induction instrs generalizing r e with
  | nil =>
      unfold compileLoop at hcl
      cases hcl
      exact ⟨⟨le_refl _, fun i _ => rfl⟩, le_refl _, fun b _ => rfl⟩
  | cons iv rest ih =>
      unfold compileLoop at hcl
      cases iv with
      | objV instr =>
          dsimp only at hcl
          cases henc : encodeInstr h vid e.codeAlloc instr r with
          | err er r1 => rw [henc] at hcl; cases hcl
          | fatal => rw [henc] at hcl; cases hcl
          | ok pr =>
              obtain ⟨ws, r1⟩ := pr
              rw [henc] at hcl
              dsimp only at hcl
              cases hem : emitWords ws e with
              | none => rw [hem] at hcl; cases hcl
              | some e1 =>
                  rw [hem] at hcl
                  obtain ⟨⟨hrc, hrp⟩, -⟩ := encodeInstr_pres h vid e.codeAlloc
                    instr r ws r1 henc
                  obtain ⟨hec, hep⟩ := emitWords_pres ws e e1 hem
                  obtain ⟨⟨hrc2, hrp2⟩, hec2, hep2⟩ := ih r1 e1 hcl
                  refine ⟨⟨le_trans hrc hrc2, fun i hi => ?_⟩,
                          le_trans hec hec2, fun b hb => ?_⟩
                  · rw [hrp2 i (lt_of_lt_of_le hi hrc), hrp i hi]
                  · rw [hep2 b (lt_of_lt_of_le hb hec), hep b hb]
      | undef => cases hcl
      | boolV b => cases hcl
      | int32 n => cases hcl
      | float32 bits => cases hcl
      | strV sr => cases hcl
      | arrV ar => cases hcl
      | hostFnV hr => cases hcl
      | rawPtr p => cases hcl

/-- A failing compile loop also only appends to the code heap. -/
theorem compileLoop_err_pres (h : Heap) (vid : Nat) (instrs : List Value)
    (r : Registry) (e : EmitState) (er : RunError) (r2 : Registry)
    (e2 : EmitState)
    (hcl : compileLoop h vid instrs r e = .err er r2 e2) :
    e.codeAlloc ≤ e2.codeAlloc ∧
      ∀ b, b < e.codeAlloc → e2.code b = e.code b := by
  induction instrs generalizing r e with
  | nil =>
      unfold compileLoop at hcl
      cases hcl
  | cons iv rest ih =>
      unfold compileLoop at hcl
      cases iv with
      | objV instr =>
          dsimp only at hcl
          cases henc : encodeInstr h vid e.codeAlloc instr r with
          | err er1 r1 =>
              rw [henc] at hcl
              cases hcl
              exact ⟨le_refl _, fun b _ => rfl⟩
          | fatal => rw [henc] at hcl; cases hcl
          | ok pr =>
              obtain ⟨ws, r1⟩ := pr
              rw [henc] at hcl
              dsimp only at hcl
              cases hem : emitWords ws e with
              | none => rw [hem] at hcl; cases hcl
              | some e1 =>
                  rw [hem] at hcl
                  obtain ⟨hec, hep⟩ := emitWords_pres ws e e1 hem
                  obtain ⟨hec2, hep2⟩ := ih r1 e1 hcl
                  refine ⟨le_trans hec hec2, fun b hb => ?_⟩
                  rw [hep2 b (lt_of_lt_of_le hb hec), hep b hb]
      | undef => cases hcl
      | boolV b => cases hcl
      | int32 n => cases hcl
      | float32 bits => cases hcl
      | strV sr => cases hcl
      | arrV ar => cases hcl
      | hostFnV hr => cases hcl
      | rawPtr p => cases hcl


/-- A successful compile writes the compiled version's startPtr at the
allocation address current on entry, and does not disturb any other
existing version or any already-emitted code word. -/
theorem compile_ok_pres (h : Heap) (vid : Nat) (r : Registry)
    (e : EmitState) (r2 : Registry) (e2 : EmitState)
    (hc : compile h vid r e = .ok (r2, e2)) (hvid : vid < r.versCount) :
    (r2.vers vid).startPtr = some e.codeAlloc ∧
    r.versCount ≤ r2.versCount ∧
    (∀ i, i < r.versCount → i ≠ vid → r2.vers i = r.vers i) ∧
    e.codeAlloc ≤ e2.codeAlloc ∧
    (∀ b, b < e.codeAlloc → e2.code b = e.code b) := by
  unfold compile at hc
  simp only [] at hc
  split at hc
  case h_2 => cases hc
  case h_3 => cases hc
  case h_1 instrsRef heq =>
    split at hc
    · cases hc
    · split at hc
      case h_2 => cases hc
      case h_3 => cases hc
      case h_1 ra eb hcl =>
        cases hc
        obtain ⟨⟨hrc, hrp⟩, hec, hep⟩ := compileLoop_pres _ _ _ _ _ _ _ hcl
        have hmid : ra.vers vid =
            { r.vers vid with startPtr := some e.codeAlloc } := by
          have := hrp vid hvid
          rw [this]
          simp only [Function.update_same]
        refine ⟨?_, hrc, fun i hi hne => ?_, hec, hep⟩
        · simp only [Function.update_same, hmid]
        · simp only [Function.update_noteq hne]
          rw [hrp i hi]
          simp only [Function.update_noteq hne]

/-- A failed compile still only appends to the code heap: existing words
are unchanged and the allocation pointer is monotone. -/
theorem compile_err_pres (h : Heap) (vid : Nat) (r : Registry)
    (e : EmitState) (er : RunError) (r2 : Registry) (e2 : EmitState)
    (hc : compile h vid r e = .err er r2 e2) :
    e.codeAlloc ≤ e2.codeAlloc ∧
      ∀ b, b < e.codeAlloc → e2.code b = e.code b := by
  unfold compile at hc
  simp only [] at hc
  split at hc
  case h_2 => cases hc; exact ⟨le_refl _, fun b _ => rfl⟩
  case h_3 => cases hc
  case h_1 instrsRef heq =>
    split at hc
    · cases hc
      exact ⟨le_refl _, fun b _ => rfl⟩
    · split at hc
      case h_1 ra eb hcl => cases hc
      case h_3 => cases hc
      case h_2 er1 ra eb hcl =>
        cases hc
        exact compileLoop_err_pres _ _ _ _ _ _ _ _ hcl

/-- C4 (amended): (a) at most one BlockVersion exists per block: a block
already in the registry yields its existing version and the registry is
unchanged; (b) funCall does not re-enter the compiler for a compiled
entry version: the registry and code heap of the resulting state are
those of the caller; (c) however, the external gateway callFun re-enters
the compiler unconditionally: even when the entry version is already
compiled, a callFun recompiles it and moves its startPtr to the current
allocation address, so the one-way transition claimed for startPtr fails. -/
theorem C4_amended_one_version_but_callfun_recompiles :
    (∀ (funRef blockRef : Nat) (r : Registry) (vid : Nat),
      r.versionOf blockRef = some vid →
      (r.vers vid).funRef = funRef →
      getBlockVersion funRef blockRef r = .ok (vid, r)) ∧
    (∀ (callInstr funRef numArgs retVid : Nat) (s : VMState)
       (entryBB entryVid entryAddr : Nat) (numLocals numParams : Int)
       (srcPos : Value),
      lookupField (s.heap.objHeap funRef) (strLit "entry") =
        some (.objV entryBB) →
      s.reg.versionOf entryBB = some entryVid →
      (s.reg.vers entryVid).funRef = funRef →
      lookupField (s.heap.objHeap funRef) (strLit "num_locals") =
        some (.int32 numLocals) →
      lookupField (s.heap.objHeap funRef) (strLit "num_params") =
        some (.int32 numParams) →
      numParams ≤ numLocals →
      (s.reg.vers entryVid).startPtr = some entryAddr →
      getSrcPos s.heap s.reg callInstr = .ok srcPos →
      (numArgs : Int) = numParams →
      ∃ s1, funCall callInstr funRef numArgs retVid s = .ok s1 ∧
        s1.reg = s.reg ∧ s1.emit = s.emit) ∧
    (∀ (funRef : Nat) (args : List Value) (s : VMState)
       (entryBB entryVid : Nat) (numLocals numParams : Int)
       (r2 : Registry) (e2 : EmitState),
      lookupField (s.heap.objHeap funRef) (strLit "num_params") =
        some (.int32 numParams) →
      lookupField (s.heap.objHeap funRef) (strLit "num_locals") =
        some (.int32 numLocals) →
      (args.length : Int) ≤ numParams →
      numParams ≤ numLocals →
      lookupField (s.heap.objHeap funRef) (strLit "entry") =
        some (.objV entryBB) →
      s.reg.versionOf entryBB = some entryVid →
      (s.reg.vers entryVid).funRef = funRef →
      entryVid < s.reg.versCount →
      compile s.heap entryVid s.reg s.emit = .ok (r2, e2) →
      ∃ pre s1, callFunEnter funRef args s = .ok (pre, s1) ∧
        s1.reg = r2 ∧
        (s1.reg.vers entryVid).startPtr = some s.emit.codeAlloc ∧
        (∀ oldA, (s.reg.vers entryVid).startPtr = some oldA →
          oldA < s.emit.codeAlloc →
          (s1.reg.vers entryVid).startPtr ≠ some oldA)) := by
  refine ⟨fun funRef blockRef r vid hv hf => ?_,
          fun callInstr funRef numArgs retVid s entryBB entryVid entryAddr
            numLocals numParams srcPos hEntry hVer hVerFun hNL hNP hLoc
            hStart hSrc hEq => ?_,
          fun funRef args s entryBB entryVid numLocals numParams r2 e2
            hNP hNL hargs hLoc hEntry hVer hVerFun hvid hComp => ?_⟩
  · unfold getBlockVersion
    rw [hv]
    simp [hf]
  · obtain ⟨spec1, _, _⟩ := funCall_spec callInstr funRef numArgs retVid s
      entryBB entryVid numLocals numParams srcPos hEntry hVer hVerFun hNL
      hNP hLoc
    exact ⟨_, spec1 entryAddr hStart hSrc hEq, rfl, rfl⟩
  · have hassert : ¬ ((args.length : Int) > numParams ∨
        numLocals < numParams) := by
      push_neg
      exact ⟨hargs, hLoc⟩
    have hS := (compile_ok_pres s.heap entryVid s.reg s.emit r2 e2 hComp
      hvid).1
    have hchain : callFunEnter funRef args s =
        .ok (stackSize s, enterExtract funRef args s) := by
      simp only [enterExtract, callFunEnter, eGetInt32, eGetField, hNP, hNL,
        eGetObj, hEntry, getBlockVersion, hVer, hVerFun, if_pos rfl,
        if_neg hassert, pushVal, compileInState, hComp, Res.ok_bind_r,
        Res.err_bind_r, Res.fatal_bind_r, Res.blocked_bind, Res.pure_eq_r, hS,
        if_true]
    have hreg : (enterExtract funRef args s).reg = r2 := by
      simp only [enterExtract, callFunEnter, eGetInt32, eGetField, hNP, hNL,
        eGetObj, hEntry, getBlockVersion, hVer, hVerFun, if_pos rfl,
        if_neg hassert, pushVal, compileInState, hComp, Res.ok_bind_r,
        Res.err_bind_r, Res.fatal_bind_r, Res.blocked_bind, Res.pure_eq_r, hS,
        if_true]
    refine ⟨stackSize s, enterExtract funRef args s, hchain, hreg, ?_, ?_⟩
    · rw [hreg]
      exact hS
    · intro oldA hOld hlt hcontra
      rw [hreg] at hcontra
      have h2 : some s.emit.codeAlloc = some oldA := hS.symm.trans hcontra
      injection h2 with h3
      omega

/-- The freshly initialised interpreter over the push/ret image. -/
def c4s0 : VMState := initState retCstHeap

/-- The state after a first callFunEnter on main: the entry version is
compiled at address 0. -/
def c4s1 : VMState := enterExtract 0 [] c4s0

/-- The state after a second callFunEnter on the same function: the same
entry version is compiled again, at address 3. -/
def c4s2 : VMState := enterExtract 0 [] c4s1

/-- The registry a recompilation of the already-compiled entry version
produces. -/
def c4r2 : Registry :=
  match compile c4s1.heap 0 c4s1.reg c4s1.emit with
  | .ok (r, _) => r
  | _ => initReg

/-- The code heap a recompilation of the already-compiled entry version
produces. -/
def c4e2 : EmitState :=
  match compile c4s1.heap 0 c4s1.reg c4s1.emit with
  | .ok (_, e) => e
  | _ => initEmit

/-- C4 counterexample: after a first callFun gateway entry on the
push/ret image the unique entry version is compiled with startPtr 0, yet
a second gateway entry on the very same function succeeds and leaves the
same version with startPtr 3: the compiled-to-startPtr transition is not
one-way under callFun. -/
theorem C4_counterexample :
    c4s1.reg.versionOf 1 = some 0 ∧
    (c4s1.reg.vers 0).startPtr = some 0 ∧
    (∃ p, callFunEnter 0 [] c4s1 = .ok (p, c4s2)) ∧
    (c4s2.reg.vers 0).startPtr = some 3 ∧
    (c4s2.reg.vers 0).startPtr ≠ (c4s1.reg.vers 0).startPtr :=
  ⟨by decide, by decide, ⟨stackSize c4s1, rfl⟩, by decide, by decide⟩

theorem C4_witness :
    ∃ pre s1, callFunEnter 0 [] c4s1 = .ok (pre, s1) ∧
      s1.reg = c4r2 ∧
      (s1.reg.vers 0).startPtr = some c4s1.emit.codeAlloc ∧
      (∀ oldA, (c4s1.reg.vers 0).startPtr = some oldA →
        oldA < c4s1.emit.codeAlloc →
        (s1.reg.vers 0).startPtr ≠ some oldA) :=
  (C4_amended_one_version_but_callfun_recompiles.2.2)
    0 [] c4s1 1 0 0 0 c4r2 c4e2
    (by decide) (by decide) (by decide) (by decide) (by decide)
    (by decide) (by decide) (by decide) rfl

/-- Unfold the Res bind into its defining match. -/
theorem Res.bind_def {α β : Type} (m : Res α) (f : α → Res β) :
    (m >>= f) = match m with
      | .ok a => f a
      | .err er s => .err er s
      | .fatal => .fatal
      | .blocked => .blocked := rfl

/-- A successful compile loop over a nonempty instruction list implies the
allocation pointer was below the heap limit on entry (the first
instruction emitted at least one word). -/
theorem compileLoop_lt (h : Heap) (vid : Nat) (iv : Value)
    (rest : List Value) (r : Registry) (e : EmitState) (r2 : Registry)
    (e2 : EmitState)
    (hcl : compileLoop h vid (iv :: rest) r e = .ok (r2, e2)) :
    e.codeAlloc < codeHeapLimit := by
  unfold compileLoop at hcl
  cases iv with
  | objV instr =>
      dsimp only at hcl
      cases henc : encodeInstr h vid e.codeAlloc instr r with
      | err er r1 => rw [henc] at hcl; cases hcl
      | fatal => rw [henc] at hcl; cases hcl
      | ok pr =>
          obtain ⟨ws, r1⟩ := pr
          rw [henc] at hcl
          dsimp only at hcl
          obtain ⟨-, hne⟩ := encodeInstr_pres h vid e.codeAlloc instr r
            ws r1 henc
          cases ws with
          | nil => exact absurd rfl hne
          | cons w ws2 =>
              cases hem : emitWords (w :: ws2) e with
              | none => rw [hem] at hcl; cases hcl
              | some e1 =>
                  unfold emitWords at hem
                  cases hw : writeCode w e with
                  | none => rw [hw] at hem; cases hem
                  | some eB => exact (writeCode_pres w e eB hw).2.1
  | undef => cases hcl
  | boolV b => cases hcl
  | int32 n => cases hcl
  | float32 bits => cases hcl
  | strV sr => cases hcl
  | arrV ar => cases hcl
  | hostFnV hr => cases hcl
  | rawPtr p => cases hcl

/-- A successful compile only appends to the code heap, and its entry
allocation pointer (the new startPtr) is a valid code-buffer address. -/
theorem compile_ok_frame (h : Heap) (vid : Nat) (r : Registry)
    (e : EmitState) (r2 : Registry) (e2 : EmitState)
    (hc : compile h vid r e = .ok (r2, e2)) :
    e.codeAlloc ≤ e2.codeAlloc ∧
    (∀ b, b < e.codeAlloc → e2.code b = e.code b) ∧
    e.codeAlloc < codeHeapLimit := by
  unfold compile at hc
  simp only [] at hc
  split at hc
  case h_2 => cases hc
  case h_3 => cases hc
  case h_1 instrsRef heq =>
    split at hc
    next hlen => cases hc
    next hlen =>
      split at hc
      case h_2 => cases hc
      case h_3 => cases hc
      case h_1 ra eb hcl =>
        cases hc
        obtain ⟨-, hec, hep⟩ := compileLoop_pres _ _ _ _ _ _ _ hcl
        refine ⟨hec, hep, ?_⟩
        cases harr : h.arrHeap instrsRef with
        | nil => rw [harr] at hlen; exact absurd rfl hlen
        | cons iv rest =>
            rw [harr] at hcl
            exact compileLoop_lt h vid iv rest _ e _ _ hcl

/-- A patched jump site: the opcode cell holds JUMP, the immediate cell
holds a direct code address below the heap limit, and both cells lie in
the already-emitted region of the code heap. -/
def siteOk (pc a : Nat) (e : EmitState) : Prop :=
  e.code pc = .op .JUMP ∧ e.code (pc + 1) = .ptrImm a ∧
  a < codeHeapLimit ∧ pc + 1 < e.codeAlloc

instance (pc a : Nat) (e : EmitState) : Decidable (siteOk pc a e) := by
  unfold siteOk
  infer_instance

/-- compile preserves every patched jump site. -/
theorem siteOk_compile (h : Heap) (vid : Nat) (r : Registry)
    (e : EmitState) (r2 : Registry) (e2 : EmitState) (pc a : Nat)
    (hc : compile h vid r e = .ok (r2, e2)) (hs : siteOk pc a e) :
    siteOk pc a e2 := by
  obtain ⟨hop, himm, ha, hin⟩ := hs
  obtain ⟨hmono, hpres, -⟩ := compile_ok_frame h vid r e r2 e2 hc
  refine ⟨?_, ?_, ha, by omega⟩
  · rw [hpres pc (by omega)]; exact hop
  · rw [hpres (pc + 1) hin]; exact himm

/-- compileInState preserves every patched jump site. -/
theorem siteOk_compileInState (vid : Nat) (s s1 : VMState) (pc a : Nat)
    (hc : compileInState vid s = .ok s1) (hs : siteOk pc a s.emit) :
    siteOk pc a s1.emit := by
  unfold compileInState at hc
  split at hc
  case h_1 rr ee hcomp => cases hc; exact siteOk_compile _ _ _ _ _ _ _ _ hcomp hs
  case h_2 => cases hc
  case h_3 => cases hc

/-- funCall preserves every patched jump site: the only code-heap write on
its success path is the conditional compilation of an uncompiled entry
version, which only appends. -/
theorem funCall_frame (callInstr funRef numArgs retVid : Nat)
    (s t : VMState) (pc a : Nat)
    (h : funCall callInstr funRef numArgs retVid s = .ok t)
    (hs : siteOk pc a s.emit) : siteOk pc a t.emit := by
  unfold funCall at h
  simp only [Res.bind_def] at h
  cases hg1 : eGetObj s.heap funRef (strLit "entry") s.reg with
  | err er r0 => rw [hg1] at h; dsimp only at h; cases h
  | fatal => rw [hg1] at h; dsimp only at h; cases h
  | ok entryBB =>
  rw [hg1] at h
  dsimp only at h
  cases hg2 : getBlockVersion funRef entryBB s.reg with
  | err er r0 => rw [hg2] at h; dsimp only at h; cases h
  | fatal => rw [hg2] at h; dsimp only at h; cases h
  | ok pr =>
  obtain ⟨entryVid, rB⟩ := pr
  rw [hg2] at h
  dsimp only at h
  split at h
  next hsp =>
    split at h
    case h_2 => cases h
    case h_3 => cases h
    case h_4 => cases h
    case h_1 s1 hcS =>
      have hs1 : siteOk pc a s1.emit :=
        siteOk_compileInState _ _ _ _ _ hcS hs
      cases hg3 : eGetInt32 s1.heap funRef (strLit "num_locals") s1.reg with
      | err er r0 => rw [hg3] at h; dsimp only at h; cases h
      | fatal => rw [hg3] at h; dsimp only at h; cases h
      | ok numLocals =>
      rw [hg3] at h
      dsimp only at h
      cases hg4 : eGetInt32 s1.heap funRef (strLit "num_params") s1.reg with
      | err er r0 => rw [hg4] at h; dsimp only at h; cases h
      | fatal => rw [hg4] at h; dsimp only at h; cases h
      | ok numParams =>
      rw [hg4] at h
      dsimp only at h
      cases hg5 : checkArgCount s1 callInstr numParams numArgs with
      | err er s2 => rw [hg5] at h; dsimp only at h; cases h
      | fatal => rw [hg5] at h; dsimp only at h; cases h
      | blocked => rw [hg5] at h; dsimp only at h; cases h
      | ok u =>
      rw [hg5] at h
      dsimp only at h
      split at h
      · cases h
      · split at h
        · cases h
        · split at h
          case h_1 A hA => cases h; exact hs1
          case h_2 => cases h
  next hsp =>
    try simp only [Res.pure_eq_r] at h
    try dsimp only at h
    cases hg3 : eGetInt32 s.heap funRef (strLit "num_locals") rB with
    | err er r0 => rw [hg3] at h; dsimp only at h; cases h
    | fatal => rw [hg3] at h; dsimp only at h; cases h
    | ok numLocals =>
    rw [hg3] at h
    dsimp only at h
    cases hg4 : eGetInt32 s.heap funRef (strLit "num_params") rB with
    | err er r0 => rw [hg4] at h; dsimp only at h; cases h
    | fatal => rw [hg4] at h; dsimp only at h; cases h
    | ok numParams =>
    rw [hg4] at h
    dsimp only at h
    cases hg5 : checkArgCount { s with reg := rB } callInstr numParams
        numArgs with
    | err er s2 => rw [hg5] at h; dsimp only at h; cases h
    | fatal => rw [hg5] at h; dsimp only at h; cases h
    | blocked => rw [hg5] at h; dsimp only at h; cases h
    | ok u =>
    rw [hg5] at h
    dsimp only at h
    split at h
    · cases h
    · split at h
      · cases h
      · split at h
        case h_1 A hA => cases h; exact hs
        case h_2 => cases h


/-- popInt32 leaves the code heap untouched. -/
theorem popInt32_emit (s : VMState) (n : Int) (s1 : VMState)
    (h : popInt32 s = .ok (n, s1)) : s1.emit = s.emit := by
  unfold popInt32 popVal at h
  cases hv : s.stk s.sp <;> rw [hv] at h <;> dsimp only at h <;>
    first
      | (cases h; rfl)
      | cases h

/-- popBool leaves the code heap untouched. -/
theorem popBool_emit (s : VMState) (b : Bool) (s1 : VMState)
    (h : popBool s = .ok (b, s1)) : s1.emit = s.emit := by
  unfold popBool popVal at h
  cases hv : s.stk s.sp <;> rw [hv] at h <;> dsimp only at h <;>
    first
      | (cases h; rfl)
      | cases h

/-- popStr leaves the code heap untouched. -/
theorem popStr_emit (s : VMState) (r : Nat) (s1 : VMState)
    (h : popStr s = .ok (r, s1)) : s1.emit = s.emit := by
  unfold popStr popVal at h
  cases hv : s.stk s.sp <;> rw [hv] at h <;> dsimp only at h <;>
    first
      | (cases h; rfl)
      | cases h

/-- popObj leaves the code heap untouched. -/
theorem popObj_emit (s : VMState) (r : Nat) (s1 : VMState)
    (h : popObj s = .ok (r, s1)) : s1.emit = s.emit := by
  unfold popObj popVal at h
  cases hv : s.stk s.sp <;> rw [hv] at h <;> dsimp only at h <;>
    first
      | (cases h; rfl)
      | cases h

set_option maxHeartbeats 4000000 in
/-- One instruction handler preserves every patched jump site: the only
in-place code writes are the JUMP_STUB and IF_TRUE patches, which target
cells holding a version pointer (at or above the heap limit) next to the
dispatched opcode cell, never the cells of an already patched site, and
every compilation only appends. -/
theorem execInstr_frame (o : Opcode) (pc0 : Nat) (s0 t : VMState)
    (pc a : Nat)
    (hDisp : s0.emit.code pc0 = .op o)
    (h : execInstr o pc0 s0 = .ok t)
    (hs : siteOk pc a s0.emit) : siteOk pc a t.emit := by
  cases o
  case JUMP_STUB =>
    obtain ⟨hop, himm, hA, hin⟩ := hs
    simp only [execInstr] at h
    split at h
    case h_2 => cases h
    case h_1 p hw =>
      split at h
      · cases h
      next hp =>
        split at h
        case h_2 => cases h
        case h_3 => cases h
        case h_4 => cases h
        case h_1 s1 hcS =>
          have hs1 : siteOk pc a s1.emit := by
            split at hcS
            next hsp =>
              exact siteOk_compileInState _ _ _ _ _ hcS ⟨hop, himm, hA, hin⟩
            next hsp => cases hcS; exact ⟨hop, himm, hA, hin⟩
          split at h
          case h_2 => cases h
          case h_1 A hsp2 =>
            cases h
            obtain ⟨hop1, himm1, hA1, hin1⟩ := hs1
            have hne1 : pc ≠ pc0 := fun he => by
              have hcw : CodeWord.op .JUMP = .op .JUMP_STUB := by
                rw [← hop, he, hDisp]
              exact Opcode.noConfusion (CodeWord.op.inj hcw)
            have hne2 : pc + 1 ≠ pc0 := fun he => by
              have hcw : CodeWord.ptrImm a = .op .JUMP_STUB := by
                rw [← himm, he, hDisp]
              exact CodeWord.noConfusion hcw
            have hne3 : pc ≠ pc0 + 1 := fun he => by
              have hcw : CodeWord.op .JUMP = .ptrImm p := by
                rw [← hop, he, hw]
              exact CodeWord.noConfusion hcw
            have hne4 : pc + 1 ≠ pc0 + 1 := fun he => by
              have hcw : CodeWord.ptrImm a = .ptrImm p := by
                rw [← himm, he, hw]
              have := CodeWord.ptrImm.inj hcw
              omega
            refine ⟨?_, ?_, hA, hin1⟩
            · show Function.update
                (Function.update s1.emit.code pc0 (.op .JUMP))
                (pc0 + 1) (.ptrImm A) pc = .op .JUMP
              rw [Function.update_noteq hne3, Function.update_noteq hne1]
              exact hop1
            · show Function.update
                (Function.update s1.emit.code pc0 (.op .JUMP))
                (pc0 + 1) (.ptrImm A) (pc + 1) = .ptrImm a
              rw [Function.update_noteq hne4, Function.update_noteq hne2]
              exact himm1
  case IF_TRUE =>
    obtain ⟨hop, himm, hA, hin⟩ := hs
    simp only [execInstr] at h
    split at h
    case h_2 => cases h
    case h_1 pt pe hw1 hw2 =>
      dsimp only [popVal] at h
      split at h
      · split at h
        · cases h
          exact ⟨hop, himm, hA, hin⟩
        next hpt1 =>
          split at h
          case h_2 => cases h
          case h_3 => cases h
          case h_4 => cases h
          case h_1 s1 hcS =>
            have hs1 : siteOk pc a s1.emit := by
              split at hcS
              next hsp =>
                exact siteOk_compileInState _ _ _ _ _ hcS ⟨hop, himm, hA, hin⟩
              next hsp => cases hcS; exact ⟨hop, himm, hA, hin⟩
            split at h
            case h_2 => cases h
            case h_1 A hsp2 =>
              cases h
              obtain ⟨hop1, himm1, hA1, hin1⟩ := hs1
              have hne1 : pc ≠ pc0 + 1 := fun he => by
                have hcw : CodeWord.op .JUMP = .ptrImm pt := by
                  rw [← hop, he, hw1]
                exact CodeWord.noConfusion hcw
              have hne2 : pc + 1 ≠ pc0 + 1 := fun he => by
                have hcw : CodeWord.ptrImm a = .ptrImm pt := by
                  rw [← himm, he, hw1]
                have := CodeWord.ptrImm.inj hcw
                omega
              refine ⟨?_, ?_, hA, hin1⟩
              · show Function.update s1.emit.code (pc0 + 1)
                  (.ptrImm A) pc = .op .JUMP
                rw [Function.update_noteq hne1]
                exact hop1
              · show Function.update s1.emit.code (pc0 + 1)
                  (.ptrImm A) (pc + 1) = .ptrImm a
                rw [Function.update_noteq hne2]
                exact himm1
      · split at h
        · cases h
          exact ⟨hop, himm, hA, hin⟩
        next hpt2 =>
          split at h
          case h_2 => cases h
          case h_3 => cases h
          case h_4 => cases h
          case h_1 s1 hcS =>
            have hs1 : siteOk pc a s1.emit := by
              split at hcS
              next hsp =>
                exact siteOk_compileInState _ _ _ _ _ hcS ⟨hop, himm, hA, hin⟩
              next hsp => cases hcS; exact ⟨hop, himm, hA, hin⟩
            split at h
            case h_2 => cases h
            case h_1 A hsp2 =>
              cases h
              obtain ⟨hop1, himm1, hA1, hin1⟩ := hs1
              have hne1 : pc ≠ pc0 + 2 := fun he => by
                have hcw : CodeWord.op .JUMP = .ptrImm pe := by
                  rw [← hop, he, hw2]
                exact CodeWord.noConfusion hcw
              have hne2 : pc + 1 ≠ pc0 + 2 := fun he => by
                have hcw : CodeWord.ptrImm a = .ptrImm pe := by
                  rw [← himm, he, hw2]
                have := CodeWord.ptrImm.inj hcw
                omega
              refine ⟨?_, ?_, hA, hin1⟩
              · show Function.update s1.emit.code (pc0 + 2)
                  (.ptrImm A) pc = .op .JUMP
                rw [Function.update_noteq hne1]
                exact hop1
              · show Function.update s1.emit.code (pc0 + 2)
                  (.ptrImm A) (pc + 1) = .ptrImm a
                rw [Function.update_noteq hne2]
                exact himm1
  case GET_TAG =>
    simp only [execInstr, popVal] at h
    try dsimp only at h
    cases h
  case RET =>
    simp only [execInstr, popVal] at h
    try dsimp only at h
    cases h
  case IMPORT =>
    simp only [execInstr, popVal] at h
    try dsimp only at h
    cases h
  case ABORT =>
    simp only [execInstr, popVal] at h
    try dsimp only at h
    cases h
  case THROW =>
    simp only [execInstr, popVal] at h
    try dsimp only at h
    cases h
  case POP =>
    simp only [execInstr, popVal] at h
    try dsimp only at h
    cases h
    exact hs
  case SWAP =>
    simp only [execInstr, popVal] at h
    try dsimp only at h
    cases h
    exact hs
  case EQ_OBJ =>
    simp only [execInstr, popVal] at h
    try dsimp only at h
    cases h
    exact hs
  case PUSH =>
    simp only [execInstr, popVal] at h
    split at h
    case h_1 v hw =>
      try dsimp only at h
      cases h
      exact hs
    case h_2 => cases h
  case DUP =>
    simp only [execInstr, popVal] at h
    split at h
    case h_1 idx hw =>
      try dsimp only at h
      cases h
      exact hs
    case h_2 => cases h
  case GET_LOCAL =>
    simp only [execInstr, popVal] at h
    split at h
    case h_1 idx hw =>
      try dsimp only at h
      cases h
      exact hs
    case h_2 => cases h
  case SET_LOCAL =>
    simp only [execInstr, popVal] at h
    split at h
    case h_1 idx hw =>
      try dsimp only at h
      cases h
      exact hs
    case h_2 => cases h
  case HAS_TAG =>
    simp only [execInstr, popVal] at h
    split at h
    case h_1 tg hw =>
      try dsimp only at h
      cases h
      exact hs
    case h_2 => cases h
  case JUMP =>
    simp only [execInstr, popVal] at h
    split at h
    case h_1 p hw =>
      try dsimp only at h
      cases h
      exact hs
    case h_2 => cases h
  case ADD_I32 =>
    simp only [execInstr, Res.bind_def] at h
    cases hp1 : popInt32 { s0 with instrPtr := pc0 + 1 } with
    | err er s9 => rw [hp1] at h; try dsimp only [popVal] at h; cases h
    | fatal => rw [hp1] at h; try dsimp only [popVal] at h; cases h
    | blocked => rw [hp1] at h; try dsimp only [popVal] at h; cases h
    | ok pr1 =>
      rw [hp1] at h
      obtain ⟨arg1, sA⟩ := pr1
      try dsimp only [popVal] at h
      cases hp2 : popInt32 sA with
      | err er s9 => rw [hp2] at h; try dsimp only [popVal] at h; cases h
      | fatal => rw [hp2] at h; try dsimp only [popVal] at h; cases h
      | blocked => rw [hp2] at h; try dsimp only [popVal] at h; cases h
      | ok pr2 =>
        rw [hp2] at h
        obtain ⟨arg0, sB⟩ := pr2
        try dsimp only [popVal] at h
        cases h
        exact (show siteOk pc a sB.emit by
          rw [popInt32_emit _ _ _ hp2, popInt32_emit _ _ _ hp1]; exact hs)
  case SUB_I32 =>
    simp only [execInstr, Res.bind_def] at h
    cases hp1 : popInt32 { s0 with instrPtr := pc0 + 1 } with
    | err er s9 => rw [hp1] at h; try dsimp only [popVal] at h; cases h
    | fatal => rw [hp1] at h; try dsimp only [popVal] at h; cases h
    | blocked => rw [hp1] at h; try dsimp only [popVal] at h; cases h
    | ok pr1 =>
      rw [hp1] at h
      obtain ⟨arg1, sA⟩ := pr1
      try dsimp only [popVal] at h
      cases hp2 : popInt32 sA with
      | err er s9 => rw [hp2] at h; try dsimp only [popVal] at h; cases h
      | fatal => rw [hp2] at h; try dsimp only [popVal] at h; cases h
      | blocked => rw [hp2] at h; try dsimp only [popVal] at h; cases h
      | ok pr2 =>
        rw [hp2] at h
        obtain ⟨arg0, sB⟩ := pr2
        try dsimp only [popVal] at h
        cases h
        exact (show siteOk pc a sB.emit by
          rw [popInt32_emit _ _ _ hp2, popInt32_emit _ _ _ hp1]; exact hs)
  case MUL_I32 =>
    simp only [execInstr, Res.bind_def] at h
    cases hp1 : popInt32 { s0 with instrPtr := pc0 + 1 } with
    | err er s9 => rw [hp1] at h; try dsimp only [popVal] at h; cases h
    | fatal => rw [hp1] at h; try dsimp only [popVal] at h; cases h
    | blocked => rw [hp1] at h; try dsimp only [popVal] at h; cases h
    | ok pr1 =>
      rw [hp1] at h
      obtain ⟨arg1, sA⟩ := pr1
      try dsimp only [popVal] at h
      cases hp2 : popInt32 sA with
      | err er s9 => rw [hp2] at h; try dsimp only [popVal] at h; cases h
      | fatal => rw [hp2] at h; try dsimp only [popVal] at h; cases h
      | blocked => rw [hp2] at h; try dsimp only [popVal] at h; cases h
      | ok pr2 =>
        rw [hp2] at h
        obtain ⟨arg0, sB⟩ := pr2
        try dsimp only [popVal] at h
        cases h
        exact (show siteOk pc a sB.emit by
          rw [popInt32_emit _ _ _ hp2, popInt32_emit _ _ _ hp1]; exact hs)
  case LT_I32 =>
    simp only [execInstr, Res.bind_def] at h
    cases hp1 : popInt32 { s0 with instrPtr := pc0 + 1 } with
    | err er s9 => rw [hp1] at h; try dsimp only [popVal] at h; cases h
    | fatal => rw [hp1] at h; try dsimp only [popVal] at h; cases h
    | blocked => rw [hp1] at h; try dsimp only [popVal] at h; cases h
    | ok pr1 =>
      rw [hp1] at h
      obtain ⟨arg1, sA⟩ := pr1
      try dsimp only [popVal] at h
      cases hp2 : popInt32 sA with
      | err er s9 => rw [hp2] at h; try dsimp only [popVal] at h; cases h
      | fatal => rw [hp2] at h; try dsimp only [popVal] at h; cases h
      | blocked => rw [hp2] at h; try dsimp only [popVal] at h; cases h
      | ok pr2 =>
        rw [hp2] at h
        obtain ⟨arg0, sB⟩ := pr2
        try dsimp only [popVal] at h
        cases h
        exact (show siteOk pc a sB.emit by
          rw [popInt32_emit _ _ _ hp2, popInt32_emit _ _ _ hp1]; exact hs)
  case LE_I32 =>
    simp only [execInstr, Res.bind_def] at h
    cases hp1 : popInt32 { s0 with instrPtr := pc0 + 1 } with
    | err er s9 => rw [hp1] at h; try dsimp only [popVal] at h; cases h
    | fatal => rw [hp1] at h; try dsimp only [popVal] at h; cases h
    | blocked => rw [hp1] at h; try dsimp only [popVal] at h; cases h
    | ok pr1 =>
      rw [hp1] at h
      obtain ⟨arg1, sA⟩ := pr1
      try dsimp only [popVal] at h
      cases hp2 : popInt32 sA with
      | err er s9 => rw [hp2] at h; try dsimp only [popVal] at h; cases h
      | fatal => rw [hp2] at h; try dsimp only [popVal] at h; cases h
      | blocked => rw [hp2] at h; try dsimp only [popVal] at h; cases h
      | ok pr2 =>
        rw [hp2] at h
        obtain ⟨arg0, sB⟩ := pr2
        try dsimp only [popVal] at h
        cases h
        exact (show siteOk pc a sB.emit by
          rw [popInt32_emit _ _ _ hp2, popInt32_emit _ _ _ hp1]; exact hs)
  case GT_I32 =>
    simp only [execInstr, Res.bind_def] at h
    cases hp1 : popInt32 { s0 with instrPtr := pc0 + 1 } with
    | err er s9 => rw [hp1] at h; try dsimp only [popVal] at h; cases h
    | fatal => rw [hp1] at h; try dsimp only [popVal] at h; cases h
    | blocked => rw [hp1] at h; try dsimp only [popVal] at h; cases h
    | ok pr1 =>
      rw [hp1] at h
      obtain ⟨arg1, sA⟩ := pr1
      try dsimp only [popVal] at h
      cases hp2 : popInt32 sA with
      | err er s9 => rw [hp2] at h; try dsimp only [popVal] at h; cases h
      | fatal => rw [hp2] at h; try dsimp only [popVal] at h; cases h
      | blocked => rw [hp2] at h; try dsimp only [popVal] at h; cases h
      | ok pr2 =>
        rw [hp2] at h
        obtain ⟨arg0, sB⟩ := pr2
        try dsimp only [popVal] at h
        cases h
        exact (show siteOk pc a sB.emit by
          rw [popInt32_emit _ _ _ hp2, popInt32_emit _ _ _ hp1]; exact hs)
  case GE_I32 =>
    simp only [execInstr, Res.bind_def] at h
    cases hp1 : popInt32 { s0 with instrPtr := pc0 + 1 } with
    | err er s9 => rw [hp1] at h; try dsimp only [popVal] at h; cases h
    | fatal => rw [hp1] at h; try dsimp only [popVal] at h; cases h
    | blocked => rw [hp1] at h; try dsimp only [popVal] at h; cases h
    | ok pr1 =>
      rw [hp1] at h
      obtain ⟨arg1, sA⟩ := pr1
      try dsimp only [popVal] at h
      cases hp2 : popInt32 sA with
      | err er s9 => rw [hp2] at h; try dsimp only [popVal] at h; cases h
      | fatal => rw [hp2] at h; try dsimp only [popVal] at h; cases h
      | blocked => rw [hp2] at h; try dsimp only [popVal] at h; cases h
      | ok pr2 =>
        rw [hp2] at h
        obtain ⟨arg0, sB⟩ := pr2
        try dsimp only [popVal] at h
        cases h
        exact (show siteOk pc a sB.emit by
          rw [popInt32_emit _ _ _ hp2, popInt32_emit _ _ _ hp1]; exact hs)
  case EQ_I32 =>
    simp only [execInstr, Res.bind_def] at h
    cases hp1 : popInt32 { s0 with instrPtr := pc0 + 1 } with
    | err er s9 => rw [hp1] at h; try dsimp only [popVal] at h; cases h
    | fatal => rw [hp1] at h; try dsimp only [popVal] at h; cases h
    | blocked => rw [hp1] at h; try dsimp only [popVal] at h; cases h
    | ok pr1 =>
      rw [hp1] at h
      obtain ⟨arg1, sA⟩ := pr1
      try dsimp only [popVal] at h
      cases hp2 : popInt32 sA with
      | err er s9 => rw [hp2] at h; try dsimp only [popVal] at h; cases h
      | fatal => rw [hp2] at h; try dsimp only [popVal] at h; cases h
      | blocked => rw [hp2] at h; try dsimp only [popVal] at h; cases h
      | ok pr2 =>
        rw [hp2] at h
        obtain ⟨arg0, sB⟩ := pr2
        try dsimp only [popVal] at h
        cases h
        exact (show siteOk pc a sB.emit by
          rw [popInt32_emit _ _ _ hp2, popInt32_emit _ _ _ hp1]; exact hs)
  case EQ_BOOL =>
    simp only [execInstr, Res.bind_def] at h
    cases hp1 : popBool { s0 with instrPtr := pc0 + 1 } with
    | err er s9 => rw [hp1] at h; try dsimp only [popVal] at h; cases h
    | fatal => rw [hp1] at h; try dsimp only [popVal] at h; cases h
    | blocked => rw [hp1] at h; try dsimp only [popVal] at h; cases h
    | ok pr1 =>
      rw [hp1] at h
      obtain ⟨arg1, sA⟩ := pr1
      try dsimp only [popVal] at h
      cases hp2 : popBool sA with
      | err er s9 => rw [hp2] at h; try dsimp only [popVal] at h; cases h
      | fatal => rw [hp2] at h; try dsimp only [popVal] at h; cases h
      | blocked => rw [hp2] at h; try dsimp only [popVal] at h; cases h
      | ok pr2 =>
        rw [hp2] at h
        obtain ⟨arg0, sB⟩ := pr2
        try dsimp only [popVal] at h
        cases h
        exact (show siteOk pc a sB.emit by
          rw [popBool_emit _ _ _ hp2, popBool_emit _ _ _ hp1]; exact hs)
  case STR_LEN =>
    simp only [execInstr, Res.bind_def] at h
    cases hp1 : popStr { s0 with instrPtr := pc0 + 1 } with
    | err er s9 => rw [hp1] at h; try dsimp only [popVal] at h; cases h
    | fatal => rw [hp1] at h; try dsimp only [popVal] at h; cases h
    | blocked => rw [hp1] at h; try dsimp only [popVal] at h; cases h
    | ok pr1 =>
      rw [hp1] at h
      obtain ⟨strRef, sA⟩ := pr1
      try dsimp only [popVal] at h
      cases h
      exact (show siteOk pc a sA.emit by
        rw [popStr_emit _ _ _ hp1]; exact hs)
  case STR_CAT =>
    simp only [execInstr, Res.bind_def] at h
    cases hp1 : popStr { s0 with instrPtr := pc0 + 1 } with
    | err er s9 => rw [hp1] at h; try dsimp only [popVal] at h; cases h
    | fatal => rw [hp1] at h; try dsimp only [popVal] at h; cases h
    | blocked => rw [hp1] at h; try dsimp only [popVal] at h; cases h
    | ok pr1 =>
      rw [hp1] at h
      obtain ⟨a2, sA⟩ := pr1
      try dsimp only [popVal] at h
      cases hp2 : popStr sA with
      | err er s9 => rw [hp2] at h; try dsimp only [popVal] at h; cases h
      | fatal => rw [hp2] at h; try dsimp only [popVal] at h; cases h
      | blocked => rw [hp2] at h; try dsimp only [popVal] at h; cases h
      | ok pr2 =>
        rw [hp2] at h
        obtain ⟨b2, sB⟩ := pr2
        try dsimp only [popVal] at h
        cases h
        exact (show siteOk pc a sB.emit by
          rw [popStr_emit _ _ _ hp2, popStr_emit _ _ _ hp1]; exact hs)
  case EQ_STR =>
    simp only [execInstr, Res.bind_def] at h
    cases hp1 : popStr { s0 with instrPtr := pc0 + 1 } with
    | err er s9 => rw [hp1] at h; try dsimp only [popVal] at h; cases h
    | fatal => rw [hp1] at h; try dsimp only [popVal] at h; cases h
    | blocked => rw [hp1] at h; try dsimp only [popVal] at h; cases h
    | ok pr1 =>
      rw [hp1] at h
      obtain ⟨a2, sA⟩ := pr1
      try dsimp only [popVal] at h
      cases hp2 : popStr sA with
      | err er s9 => rw [hp2] at h; try dsimp only [popVal] at h; cases h
      | fatal => rw [hp2] at h; try dsimp only [popVal] at h; cases h
      | blocked => rw [hp2] at h; try dsimp only [popVal] at h; cases h
      | ok pr2 =>
        rw [hp2] at h
        obtain ⟨b2, sB⟩ := pr2
        try dsimp only [popVal] at h
        cases h
        exact (show siteOk pc a sB.emit by
          rw [popStr_emit _ _ _ hp2, popStr_emit _ _ _ hp1]; exact hs)
  case NEW_OBJECT =>
    simp only [execInstr, Res.bind_def] at h
    cases hp1 : popInt32 { s0 with instrPtr := pc0 + 1 } with
    | err er s9 => rw [hp1] at h; try dsimp only [popVal] at h; cases h
    | fatal => rw [hp1] at h; try dsimp only [popVal] at h; cases h
    | blocked => rw [hp1] at h; try dsimp only [popVal] at h; cases h
    | ok pr1 =>
      rw [hp1] at h
      obtain ⟨n1, sA⟩ := pr1
      try dsimp only [popVal] at h
      cases h
      exact (show siteOk pc a sA.emit by
        rw [popInt32_emit _ _ _ hp1]; exact hs)
  case NEW_ARRAY =>
    simp only [execInstr, Res.bind_def] at h
    cases hp1 : popInt32 { s0 with instrPtr := pc0 + 1 } with
    | err er s9 => rw [hp1] at h; try dsimp only [popVal] at h; cases h
    | fatal => rw [hp1] at h; try dsimp only [popVal] at h; cases h
    | blocked => rw [hp1] at h; try dsimp only [popVal] at h; cases h
    | ok pr1 =>
      rw [hp1] at h
      obtain ⟨n1, sA⟩ := pr1
      try dsimp only [popVal] at h
      cases h
      exact (show siteOk pc a sA.emit by
        rw [popInt32_emit _ _ _ hp1]; exact hs)
  case HAS_FIELD =>
    simp only [execInstr, Res.bind_def] at h
    cases hp1 : popStr { s0 with instrPtr := pc0 + 1 } with
    | err er s9 => rw [hp1] at h; try dsimp only [popVal] at h; cases h
    | fatal => rw [hp1] at h; try dsimp only [popVal] at h; cases h
    | blocked => rw [hp1] at h; try dsimp only [popVal] at h; cases h
    | ok pr1 =>
      rw [hp1] at h
      obtain ⟨fieldRef, sA⟩ := pr1
      try dsimp only [popVal] at h
      cases hp2 : popObj sA with
      | err er s9 => rw [hp2] at h; try dsimp only [popVal] at h; cases h
      | fatal => rw [hp2] at h; try dsimp only [popVal] at h; cases h
      | blocked => rw [hp2] at h; try dsimp only [popVal] at h; cases h
      | ok pr2 =>
        rw [hp2] at h
        obtain ⟨oref, sB⟩ := pr2
        try dsimp only [popVal] at h
        cases h
        exact (show siteOk pc a sB.emit by
          rw [popObj_emit _ _ _ hp2, popStr_emit _ _ _ hp1]; exact hs)
  case GET_CHAR =>
    simp only [execInstr, Res.bind_def] at h
    cases hp1 : popInt32 { s0 with instrPtr := pc0 + 1 } with
    | err er s9 => rw [hp1] at h; try dsimp only [popVal] at h; cases h
    | fatal => rw [hp1] at h; try dsimp only [popVal] at h; cases h
    | blocked => rw [hp1] at h; try dsimp only [popVal] at h; cases h
    | ok pr1 =>
      rw [hp1] at h
      obtain ⟨idx, sA⟩ := pr1
      try dsimp only [popVal] at h
      cases hp2 : popStr sA with
      | err er s9 => rw [hp2] at h; try dsimp only [popVal] at h; cases h
      | fatal => rw [hp2] at h; try dsimp only [popVal] at h; cases h
      | blocked => rw [hp2] at h; try dsimp only [popVal] at h; cases h
      | ok pr2 =>
        rw [hp2] at h
        obtain ⟨strRef, sB⟩ := pr2
        try dsimp only [popVal] at h
        split at h
        · cases h
        · try dsimp only at h
          split at h
          · cases h
            exact (show siteOk pc a sB.emit by
              rw [popStr_emit _ _ _ hp2, popInt32_emit _ _ _ hp1]; exact hs)
          · cases h
            exact (show siteOk pc a sB.emit by
              rw [popStr_emit _ _ _ hp2, popInt32_emit _ _ _ hp1]; exact hs)
  case GET_CHAR_CODE =>
    simp only [execInstr, Res.bind_def] at h
    cases hp1 : popInt32 { s0 with instrPtr := pc0 + 1 } with
    | err er s9 => rw [hp1] at h; try dsimp only [popVal] at h; cases h
    | fatal => rw [hp1] at h; try dsimp only [popVal] at h; cases h
    | blocked => rw [hp1] at h; try dsimp only [popVal] at h; cases h
    | ok pr1 =>
      rw [hp1] at h
      obtain ⟨idx, sA⟩ := pr1
      try dsimp only [popVal] at h
      cases hp2 : popStr sA with
      | err er s9 => rw [hp2] at h; try dsimp only [popVal] at h; cases h
      | fatal => rw [hp2] at h; try dsimp only [popVal] at h; cases h
      | blocked => rw [hp2] at h; try dsimp only [popVal] at h; cases h
      | ok pr2 =>
        rw [hp2] at h
        obtain ⟨strRef, sB⟩ := pr2
        try dsimp only [popVal] at h
        split at h
        · cases h
        · cases h
          exact (show siteOk pc a sB.emit by
            rw [popStr_emit _ _ _ hp2, popInt32_emit _ _ _ hp1]; exact hs)
  case SET_FIELD =>
    simp only [execInstr, Res.bind_def, popVal] at h
    try dsimp only at h
    cases hp1 : popStr { s0 with sp := s0.sp + 1, instrPtr := pc0 + 1 } with
    | err er s9 => rw [hp1] at h; try dsimp only [popVal] at h; cases h
    | fatal => rw [hp1] at h; try dsimp only [popVal] at h; cases h
    | blocked => rw [hp1] at h; try dsimp only [popVal] at h; cases h
    | ok pr1 =>
      rw [hp1] at h
      obtain ⟨fieldRef, sA⟩ := pr1
      try dsimp only [popVal] at h
      cases hp2 : popObj sA with
      | err er s9 => rw [hp2] at h; try dsimp only [popVal] at h; cases h
      | fatal => rw [hp2] at h; try dsimp only [popVal] at h; cases h
      | blocked => rw [hp2] at h; try dsimp only [popVal] at h; cases h
      | ok pr2 =>
        rw [hp2] at h
        obtain ⟨oref, sB⟩ := pr2
        try dsimp only [popVal] at h
        split at h
        · cases h
          exact (show siteOk pc a sB.emit by
            rw [popObj_emit _ _ _ hp2, popStr_emit _ _ _ hp1]; exact hs)
        · cases h
  case GET_FIELD =>
    simp only [execInstr, Res.bind_def] at h
    cases hp1 : popStr { s0 with instrPtr := pc0 + 1 } with
    | err er s9 => rw [hp1] at h; try dsimp only [popVal] at h; cases h
    | fatal => rw [hp1] at h; try dsimp only [popVal] at h; cases h
    | blocked => rw [hp1] at h; try dsimp only [popVal] at h; cases h
    | ok pr1 =>
      rw [hp1] at h
      obtain ⟨fieldRef, sA⟩ := pr1
      try dsimp only [popVal] at h
      cases hp2 : popObj sA with
      | err er s9 => rw [hp2] at h; try dsimp only [popVal] at h; cases h
      | fatal => rw [hp2] at h; try dsimp only [popVal] at h; cases h
      | blocked => rw [hp2] at h; try dsimp only [popVal] at h; cases h
      | ok pr2 =>
        rw [hp2] at h
        obtain ⟨oref, sB⟩ := pr2
        try dsimp only [popVal] at h
        split at h
        case h_1 v hlf =>
          cases h
          exact (show siteOk pc a sB.emit by
            rw [popObj_emit _ _ _ hp2, popStr_emit _ _ _ hp1]; exact hs)
        case h_2 => cases h
  case ARRAY_LEN =>
    simp only [execInstr, popVal] at h
    cases hv : s0.stk s0.sp <;> rw [hv] at h <;> try dsimp only at h
    case arrV aref => cases h; exact hs
    all_goals cases h
  case ARRAY_PUSH =>
    simp only [execInstr, popVal] at h
    try dsimp only at h
    cases hv : s0.stk (s0.sp + 1) <;> rw [hv] at h <;> try dsimp only at h
    case arrV aref => cases h; exact hs
    all_goals cases h
  case SET_ELEM =>
    simp only [execInstr, Res.bind_def, popVal] at h
    try dsimp only at h
    cases hp1 : popInt32 { s0 with sp := s0.sp + 1, instrPtr := pc0 + 1 } with
    | err er s9 => rw [hp1] at h; try dsimp only [popVal] at h; cases h
    | fatal => rw [hp1] at h; try dsimp only [popVal] at h; cases h
    | blocked => rw [hp1] at h; try dsimp only [popVal] at h; cases h
    | ok pr1 =>
      rw [hp1] at h
      obtain ⟨idx, sA⟩ := pr1
      try dsimp only [popVal] at h
      cases hv : sA.stk sA.sp <;> rw [hv] at h <;> try dsimp only at h
      case arrV aref =>
        split at h
        · cases h
        · cases h
          exact (show siteOk pc a sA.emit by
            rw [popInt32_emit _ _ _ hp1]; exact hs)
      all_goals cases h
  case GET_ELEM =>
    simp only [execInstr, Res.bind_def] at h
    cases hp1 : popInt32 { s0 with instrPtr := pc0 + 1 } with
    | err er s9 => rw [hp1] at h; try dsimp only [popVal] at h; cases h
    | fatal => rw [hp1] at h; try dsimp only [popVal] at h; cases h
    | blocked => rw [hp1] at h; try dsimp only [popVal] at h; cases h
    | ok pr1 =>
      rw [hp1] at h
      obtain ⟨idx, sA⟩ := pr1
      try dsimp only [popVal] at h
      cases hv : sA.stk sA.sp <;> rw [hv] at h <;> try dsimp only at h
      case arrV aref =>
        split at h
        · cases h
        · cases h
          exact (show siteOk pc a sA.emit by
            rw [popInt32_emit _ _ _ hp1]; exact hs)
      all_goals cases h
  case CALL =>
    simp only [execInstr, popVal] at h
    split at h
    case h_2 => cases h
    case h_1 numArgs p hw1 hw2 =>
      split at h
      · cases h
      next hp =>
        try dsimp only at h
        split at h
        · cases h
        next hsz =>
          cases hv : s0.stk s0.sp <;> rw [hv] at h <;> try dsimp only at h
          case objV funRef => exact funCall_frame _ _ _ _ _ _ _ _ h hs
          all_goals cases h
  case ADD_F32 =>
    simp only [execInstr] at h
    cases h
  case SUB_F32 =>
    simp only [execInstr] at h
    cases h
  case MUL_F32 =>
    simp only [execInstr] at h
    cases h
  case DIV_F32 =>
    simp only [execInstr] at h
    cases h
  case LT_F32 =>
    simp only [execInstr] at h
    cases h
  case LE_F32 =>
    simp only [execInstr] at h
    cases h
  case GT_F32 =>
    simp only [execInstr] at h
    cases h
  case GE_F32 =>
    simp only [execInstr] at h
    cases h
  case EQ_F32 =>
    simp only [execInstr] at h
    cases h
  case SIN_F32 =>
    simp only [execInstr] at h
    cases h
  case COS_F32 =>
    simp only [execInstr] at h
    cases h
  case SQRT_F32 =>
    simp only [execInstr] at h
    cases h
  case I32_TO_F32 =>
    simp only [execInstr] at h
    cases h
  case F32_TO_I32 =>
    simp only [execInstr] at h
    cases h
  case F32_TO_STR =>
    simp only [execInstr] at h
    cases h
  case STR_TO_F32 =>
    simp only [execInstr] at h
    cases h

/-- One dispatch of the interpreter loop preserves every patched jump
site. -/
theorem execStep_frame (s t : VMState) (pc a : Nat)
    (h : execStep s = .next t) (hs : siteOk pc a s.emit) :
    siteOk pc a t.emit := by
  simp only [execStep, popVal] at h
  split at h
  case h_3 => cases h
  case h_2 o hne heq =>
    cases he : execInstr o s.instrPtr s with
    | ok t1 =>
        rw [he] at h
        dsimp only [Res.toStep] at h
        cases h
        exact execInstr_frame o s.instrPtr s _ pc a heq he hs
    | err er s1 => rw [he] at h; dsimp only [Res.toStep] at h; cases h
    | fatal => rw [he] at h; dsimp only [Res.toStep] at h; cases h
    | blocked => rw [he] at h; dsimp only [Res.toStep] at h; cases h
  case h_1 heq =>
    split at h
    case h_2 => cases h
    case h_1 f p hw1 hw2 =>
      split at h
      case h_1 => cases h
      case h_3 => cases h
      case h_2 retVid hrv =>
        split at h
        case h_2 => cases h
        case h_3 => cases h
        case h_4 => cases h
        case h_1 s1 hcS =>
          have hs1 : siteOk pc a s1.emit := by
            split at hcS
            next hsp => exact siteOk_compileInState _ _ _ _ _ hcS hs
            next hsp => cases hcS; exact hs
          split at h
          case h_1 A hA2 => cases h; exact hs1
          case h_2 => cases h

/-- C3: (1) the first execution of a JUMP_STUB site whose target version
is uncompiled reads the target word as a version pointer, compiles the
version, rewrites the immediate in place to the version startPtr (the
entry allocation address, a valid code-buffer address), rewrites the
opcode in place to JUMP and jumps there, leaving a patched site; (2) the
first execution with an already compiled target patches the site with the
existing startPtr and jumps, without re-entering the compiler: the
registry and the allocation pointer are unchanged; (3) executing a
patched site reads the opcode JUMP and jumps to its immediate, changing
nothing but the instruction pointer; (4) every interpreter dispatch
preserves a patched site, so on every subsequent execution of the site
the opcode read is JUMP and the immediate is the same valid address
within the code buffer. -/
theorem C3_jump_stub_patches_to_jump :
    (∀ (s : VMState) (pc vid : Nat) (r2 : Registry) (e2 : EmitState),
      s.instrPtr = pc →
      s.emit.code pc = .op .JUMP_STUB →
      s.emit.code (pc + 1) = .ptrImm (codeHeapLimit + vid) →
      (s.reg.vers vid).startPtr = none →
      vid < s.reg.versCount →
      compile s.heap vid s.reg s.emit = .ok (r2, e2) →
      pc + 1 < s.emit.codeAlloc →
      ∃ t, execStep s = .next t ∧
        t.emit.code pc = .op .JUMP ∧
        t.emit.code (pc + 1) = .ptrImm s.emit.codeAlloc ∧
        (t.reg.vers vid).startPtr = some s.emit.codeAlloc ∧
        t.instrPtr = s.emit.codeAlloc ∧
        siteOk pc s.emit.codeAlloc t.emit) ∧
    (∀ (s : VMState) (pc vid a0 : Nat),
      s.instrPtr = pc →
      s.emit.code pc = .op .JUMP_STUB →
      s.emit.code (pc + 1) = .ptrImm (codeHeapLimit + vid) →
      (s.reg.vers vid).startPtr = some a0 →
      ∃ t, execStep s = .next t ∧
        t.emit.code pc = .op .JUMP ∧
        t.emit.code (pc + 1) = .ptrImm a0 ∧
        t.instrPtr = a0 ∧
        t.reg = s.reg ∧
        t.emit.codeAlloc = s.emit.codeAlloc ∧
        (a0 < codeHeapLimit → pc + 1 < s.emit.codeAlloc →
          siteOk pc a0 t.emit)) ∧
    (∀ (s : VMState) (pc a : Nat),
      s.instrPtr = pc →
      siteOk pc a s.emit →
      execStep s = .next { s with instrPtr := a }) ∧
    (∀ (s t : VMState) (pc a : Nat),
      execStep s = .next t →
      siteOk pc a s.emit →
      siteOk pc a t.emit) := by
  refine ⟨?_, ?_, ?_, fun s t pc a h hs => execStep_frame s t pc a h hs⟩
  · intro s pc vid r2 e2 hPC hOp hImm hNone hvid hComp hIn
    have hS : (r2.vers vid).startPtr = some s.emit.codeAlloc :=
      (compile_ok_pres s.heap vid s.reg s.emit r2 e2 hComp hvid).1
    obtain ⟨hMono, -, hLim⟩ :=
      compile_ok_frame s.heap vid s.reg s.emit r2 e2 hComp
    refine ⟨{ s with
        reg := r2
        emit := ⟨Function.update (Function.update e2.code pc (.op .JUMP)) (pc + 1) (.ptrImm s.emit.codeAlloc), e2.codeAlloc⟩
        instrPtr := s.emit.codeAlloc }, ?_, ?_, ?_, ?_, rfl, ?_⟩
    · simp only [execStep, hPC, hOp, execInstr, hImm,
        if_neg (show ¬ codeHeapLimit + vid < codeHeapLimit by omega),
        Nat.add_sub_cancel_left, if_pos hNone, compileInState, hComp,
        hS, Res.toStep]
    · show Function.update (Function.update e2.code pc (.op .JUMP))
        (pc + 1) (.ptrImm s.emit.codeAlloc) pc = .op .JUMP
      rw [Function.update_noteq (by omega : pc ≠ pc + 1),
        Function.update_same]
    · show Function.update (Function.update e2.code pc (.op .JUMP))
        (pc + 1) (.ptrImm s.emit.codeAlloc) (pc + 1) =
          .ptrImm s.emit.codeAlloc
      rw [Function.update_same]
    · exact hS
    · refine ⟨?_, ?_, hLim, ?_⟩
      · show Function.update (Function.update e2.code pc (.op .JUMP))
          (pc + 1) (.ptrImm s.emit.codeAlloc) pc = .op .JUMP
        rw [Function.update_noteq (by omega : pc ≠ pc + 1),
          Function.update_same]
      · exact Function.update_same _ _ _
      · show pc + 1 < e2.codeAlloc
        omega
  · intro s pc vid a0 hPC hOp hImm hSome
    refine ⟨{ s with
        emit := ⟨Function.update (Function.update s.emit.code pc (.op .JUMP)) (pc + 1) (.ptrImm a0), s.emit.codeAlloc⟩
        instrPtr := a0 }, ?_, ?_, ?_, rfl, rfl, rfl, ?_⟩
    · simp only [execStep, hPC, hOp, execInstr, hImm,
        if_neg (show ¬ codeHeapLimit + vid < codeHeapLimit by omega),
        Nat.add_sub_cancel_left,
        if_neg (show ¬ (s.reg.vers vid).startPtr = none by
          rw [hSome]; simp),
        if_neg (show ¬ (some a0 = none) from fun hx =>
          Option.noConfusion hx),
        hSome, Res.toStep]
    · show Function.update (Function.update s.emit.code pc (.op .JUMP))
        (pc + 1) (.ptrImm a0) pc = .op .JUMP
      rw [Function.update_noteq (by omega : pc ≠ pc + 1),
        Function.update_same]
    · show Function.update (Function.update s.emit.code pc (.op .JUMP))
        (pc + 1) (.ptrImm a0) (pc + 1) = .ptrImm a0
      rw [Function.update_same]
    · intro hA hIn
      refine ⟨?_, ?_, hA, ?_⟩
      · show Function.update (Function.update s.emit.code pc (.op .JUMP))
          (pc + 1) (.ptrImm a0) pc = .op .JUMP
        rw [Function.update_noteq (by omega : pc ≠ pc + 1),
          Function.update_same]
      · exact Function.update_same _ _ _
      · show pc + 1 < s.emit.codeAlloc
        exact hIn
  · intro s pc a hPC hsite
    simp only [execStep, hPC, hsite.1, execInstr, hsite.2.1, Res.toStep]

/-- A concrete state at an unexecuted JUMP_STUB site over the push/ret
image: the stub occupies words 0 and 1, its target version 0 (the
push/ret block) is uncompiled. -/
def c3sA : VMState :=
  { heap := retCstHeap
    emit := ⟨mkCode [.op .JUMP_STUB, .ptrImm (codeHeapLimit + 0)], 2⟩
    reg := { vers := fun v => if v = 0 then { funRef := 0, blockRef := 1 } else { funRef := 0, blockRef := 0 }
             versCount := 1
             versionOf := fun b => if b = 1 then some 0 else none
             instrMap := fun _ => none
             retMap := fun _ => none }
    stk := fun _ => .undef
    sp := stackBaseAddr
    fp := stackBaseAddr
    instrPtr := 0
    charStrings := fun _ => .boolV false }

/-- The registry the stub-triggered compilation produces. -/
def c3rA : Registry :=
  match compile c3sA.heap 0 c3sA.reg c3sA.emit with
  | .ok (r, _) => r
  | _ => initReg

/-- The code heap the stub-triggered compilation produces. -/
def c3eA : EmitState :=
  match compile c3sA.heap 0 c3sA.reg c3sA.emit with
  | .ok (_, e) => e
  | _ => initEmit

/-- A concrete state at a JUMP_STUB site whose target version is already
compiled (startPtr 0). -/
def c3sB : VMState :=
  { heap := emptyHeap
    emit := ⟨mkCode [.op .JUMP_STUB, .ptrImm (codeHeapLimit + 0)], 2⟩
    reg := { vers := fun v => if v = 0 then { funRef := 0, blockRef := 1, startPtr := some 0, endPtr := some 2 } else { funRef := 0, blockRef := 0 }
             versCount := 1
             versionOf := fun b => if b = 1 then some 0 else none
             instrMap := fun _ => none
             retMap := fun _ => none }
    stk := fun _ => .undef
    sp := stackBaseAddr
    fp := stackBaseAddr
    instrPtr := 0
    charStrings := fun _ => .boolV false }

theorem C3_witness :
    (∃ t, execStep c3sA = .next t ∧
      t.emit.code 0 = .op .JUMP ∧
      t.emit.code (0 + 1) = .ptrImm c3sA.emit.codeAlloc ∧
      (t.reg.vers 0).startPtr = some c3sA.emit.codeAlloc ∧
      t.instrPtr = c3sA.emit.codeAlloc ∧
      siteOk 0 c3sA.emit.codeAlloc t.emit) ∧
    (∃ t, execStep c3sB = .next t ∧
      t.emit.code 0 = .op .JUMP ∧
      t.emit.code (0 + 1) = .ptrImm 0 ∧
      t.instrPtr = 0 ∧
      t.reg = c3sB.reg ∧
      t.emit.codeAlloc = c3sB.emit.codeAlloc ∧
      (0 < codeHeapLimit → 0 + 1 < c3sB.emit.codeAlloc →
        siteOk 0 0 t.emit)) :=
  ⟨C3_jump_stub_patches_to_jump.1 c3sA 0 0 c3rA c3eA rfl (by decide)
    (by decide) (by decide) (by decide) rfl (by decide),
   C3_jump_stub_patches_to_jump.2.1 c3sB 0 0 0 rfl (by decide) (by decide)
    (by decide)⟩

end ZetaVM
